import Mathlib

/-!
Shallow embedding of the core speed-estimation pipeline of the
Car-Speed-Via-Doppler library, together with theorems checking the
specification claims against it.

JavaScript numbers are modelled as exact rationals; array indices and slice
bounds are integers with explicit JavaScript clamping semantics; fallible
operations return `Except` or structured result records, mirroring the
source's structured result objects.

The file is organised as definitions first, theorems second.
-/

set_option maxRecDepth 4000

namespace CarDoppler

/-! # Definitions -/

/-! ## JavaScript array primitives -/

/-- Clamping of one bound of `Array.prototype.slice`: a negative index counts
from the end of the array, and the result is clamped to `[0, length]`. -/
def jsSliceIndex (len : ℕ) (i : ℤ) : ℕ :=
  if i < 0 then ((len : ℤ) + i).toNat else min i.toNat len

/-- JavaScript `arr.slice(start, end)` on an array of numbers. -/
def jsSlice (l : List ℚ) (s e : ℤ) : List ℚ :=
  (l.take (jsSliceIndex l.length e)).drop (jsSliceIndex l.length s)

/-- JavaScript `arr.slice(start)` (one-argument form). -/
def jsSliceFrom (l : List ℚ) (s : ℤ) : List ℚ :=
  jsSlice l s l.length

/-- JavaScript stable `Array.prototype.sort` with comparator
`(a, b) => key(b) - key(a)` (descending by `key`), modelled as a stable
insertion sort: an element is inserted in front of the first element whose
key is not larger, so elements with equal keys keep their original order. -/
def sortDescBy {α : Type} (key : α → ℚ) (l : List α) : List α :=
  List.insertionSort (fun a b => key b ≤ key a) l

/-- The `reduce((best, current) => current < best ? current : best)` fold used
by the selection steps of the source: keep the current best, replace it only
when the new key is strictly smaller. -/
def foldMinBy {α : Type} (key : α → ℚ) (x : α) (l : List α) : α :=
  l.foldl (fun best cur => if key cur < key best then cur else best) x

/-- One step of the first-minimum fold on an optional accumulator: accept the
first candidate, then replace only on a strictly smaller key. -/
def minStep {α : Type} (key : α → ℚ) (acc : Option α) (cur : α) : Option α :=
  match acc with
  | none => some cur
  | some best => if key cur < key best then some cur else some best

/-- The fold of `tryTertiaryStrategy`: the accumulator starts empty (with
`bestError = Infinity` in the source, so the first candidate is always
accepted) and is replaced only on a strictly smaller key. -/
def keepFirstMin {α : Type} (key : α → ℚ) (l : List α) : Option α :=
  l.foldl (minStep key) none

/-- JavaScript `Math.abs`, written as a conditional so that it evaluates by
kernel reduction. -/
def mathAbs (x : ℚ) : ℚ := if x < 0 then -x else x

/-! ## DopplerSpeedCalculator (doppler-calculator-v2.js) -/

/-- The calculator's mutable state: sound speed and the configurable speed
limits (`setSpeedLimits`). Defaults are 343 m/s and [0, 1000] km/h. -/
structure DopplerSpeedCalculator where
  soundSpeed : ℚ := 343
  minReasonableSpeed : ℚ := 0
  maxReasonableSpeed : ℚ := 1000

/-- `calculateSpeed`: the Doppler formula `c * (f1 - f2) / (f1 + f2)`
converted to km/h, returning 0 when the result falls outside the configured
bounds (`speedKmh >= max || speedKmh < min`). -/
def DopplerSpeedCalculator.calculateSpeed (c : DopplerSpeedCalculator)
    (approachingFrequency recedingFrequency : ℚ) : ℚ :=
  let speedMs := c.soundSpeed * (approachingFrequency - recedingFrequency) /
      (approachingFrequency + recedingFrequency)
  let speedKmh := speedMs * 3.6
  if c.maxReasonableSpeed ≤ speedKmh ∨ speedKmh < c.minReasonableSpeed then 0
  else speedKmh

/-- Result object of `calculateSpeedWithValidation`. -/
structure SpeedValidationResult where
  speedKMH : ℚ
  speedMPH : ℚ
  valid : Bool
  error : Option String
  deriving DecidableEq

/-- `calculateSpeedWithValidation`: frequency validation ahead of the speed
computation, returning a structured result rather than throwing. -/
def DopplerSpeedCalculator.calculateSpeedWithValidation (c : DopplerSpeedCalculator)
    (f1 f2 : ℚ) : SpeedValidationResult :=
  if f1 ≤ 0 ∨ f2 ≤ 0 then
    ⟨0, 0, false, some "Invalid frequency values"⟩
  else if mathAbs (f1 - f2) < 1 then
    ⟨0, 0, false, some "Frequency difference too small"⟩
  else
    let speedKMH := c.calculateSpeed f1 f2
    ⟨speedKMH, speedKMH * 0.621371, decide (0 < speedKMH),
      if speedKMH = 0 then some "Speed outside reasonable range" else none⟩

/-- The calculator constructed with `new DopplerCalculator()`. -/
def defaultCalculator : DopplerSpeedCalculator := {}

/-! ## Cross-strategy final selection
(audio-analyzer.js, `findBestSpeedCalculation`) -/

/-- Strategy tier tags, in the order the tiers are attempted. -/
inductive TierTag where
  | primary
  | secondary
  | tertiary
  deriving DecidableEq

/-- One valid tier result as pushed onto the `strategies` array. Only the
speed takes part in the final selection. -/
structure TierResult where
  speedMph : ℚ
  tier : TierTag
  deriving DecidableEq

/-- The `strategies` array of `findBestSpeedCalculation`: each tier's result
is pushed only when valid, in Primary, Secondary, Tertiary order. -/
def buildStrategies (p s t : Option ℚ) : List TierResult :=
  (p.map fun v => TierResult.mk v .primary).toList ++
    (s.map fun v => TierResult.mk v .secondary).toList ++
    (t.map fun v => TierResult.mk v .tertiary).toList

/-- `strategies.filter(s => s.speedMph >= 10 && s.speedMph <= 100)`. -/
def reasonableFilter (l : List TierResult) : List TierResult :=
  l.filter fun s => decide (10 ≤ s.speedMph) && decide (s.speedMph ≤ 100)

/-- The shape of the final selection outcome: `valid: false` with no result,
or a selected tier result. -/
structure FinalSelection where
  valid : Bool
  result : Option TierResult
  deriving DecidableEq

/-- The selection step of `findBestSpeedCalculation`: with no valid tier
result report `valid: false`; otherwise prefer speeds in [10, 100] mph and
pick the lowest via
`reduce((best, current) => current.speedMph < best.speedMph ? current : best)`;
with no speed in the band pick the lowest overall. -/
def findBestSpeedSelection (strategies : List TierResult) : FinalSelection :=
  match strategies with
  | [] => ⟨false, none⟩
  | s₀ :: rest =>
    match reasonableFilter (s₀ :: rest) with
    | r₀ :: rrest => ⟨true, some (foldMinBy (fun s => s.speedMph) r₀ rrest)⟩
    | [] => ⟨true, some (foldMinBy (fun s => s.speedMph) s₀ rest)⟩

/-! ## FrequencyAnalysis (frequency-analysis.js) -/

/-- A ranked frequency candidate as produced by `rankFrequencies`: frequency,
raw power, normalized power score, and 1-based rank (ranks take part in
arithmetic, so they are kept as numbers). -/
structure RankedFreq where
  frequency : ℚ
  power : ℚ
  powerScore : ℚ
  rank : ℚ
  deriving DecidableEq

/-- JavaScript `x || 0.5` on a number: 0 is falsy and replaced by the
default. -/
def orHalf (x : ℚ) : ℚ := if x = 0 then 0.5 else x

/-- `calculateSpeedConfidence` (frequency-analysis.js lines 362-399),
translated statement by statement. The two quality arguments are the
sections' `overallConfidence` values. -/
def calculateSpeedConfidence (approachFreq recedeFreq : RankedFreq) (speed : ℚ)
    (approachQuality recedeQuality : ℚ) : ℚ :=
  let powerConfidence := min (orHalf approachFreq.powerScore) (orHalf recedeFreq.powerScore)
  let qualityConfidence := (approachQuality + recedeQuality) / 2
  let speedConfidence : ℚ :=
    if speed < 5 then speed / 5
    else if 100 < speed then max 0.2 (1 - (speed - 100) / 100)
    else 1
  let separation := (approachFreq.frequency - recedeFreq.frequency) / recedeFreq.frequency
  let separationConfidence := min 1 (separation * 10)
  let rankingConfidence :=
    1 - ((approachFreq.rank - 1) * 0.1 + (recedeFreq.rank - 1) * 0.1)
  let confidence := powerConfidence * 0.3 + qualityConfidence * 0.25 +
      speedConfidence * 0.2 + separationConfidence * 0.15 +
      max 0 rankingConfidence * 0.1
  max 0 (min 1 confidence)

/-- Modelled from the spec: claim C4's composite confidence formula, with
powerScore the minimum of the two candidates' power scores, sectionQuality
the average of the section qualities, and the spelled-out reasonableness,
separation and rank-bonus components, clamped to [0, 1]. -/
def specSpeedConfidence (a r : RankedFreq) (speed qa qr : ℚ) : ℚ :=
  let powerScore := min a.powerScore r.powerScore
  let sectionQuality := (qa + qr) / 2
  let speedReasonableness : ℚ :=
    if speed < 5 then speed / 5
    else if 100 < speed then max 0.2 (1 - (speed - 100) / 100)
    else 1
  let separationScore := min 1 ((a.frequency - r.frequency) / r.frequency * 10)
  let rankBonus := max 0 (1 - 0.1 * (a.rank - 1) - 0.1 * (r.rank - 1))
  max 0 (min 1 (0.3 * powerScore + 0.25 * sectionQuality +
    0.2 * speedReasonableness + 0.15 * separationScore + 0.1 * rankBonus))

/-- One speed-calculation record pushed by `combineAnalyses`. -/
structure SpeedCalculation where
  approachFreq : ℚ
  recedeFreq : ℚ
  approachPower : ℚ
  recedePower : ℚ
  approachRank : ℚ
  recedeRank : ℚ
  speed : ℚ
  confidence : ℚ
  frequencySeparation : ℚ
  relativeShift : ℚ
  deriving DecidableEq

/-- The `const speed` of the pair loop of `combineAnalyses`: the Doppler
speed of one candidate pair under the default calculator. -/
def pairSpeed (a r : RankedFreq) : ℚ :=
  defaultCalculator.calculateSpeed a.frequency r.frequency

/-- The `const speedConfidence` of the pair loop of `combineAnalyses`. -/
def pairConfidence (a r : RankedFreq) (qa qr : ℚ) : ℚ :=
  calculateSpeedConfidence a r (pairSpeed a r) qa qr

/-- The pair loop of `combineAnalyses` (frequency-analysis.js lines 281-328):
all combinations of the top five approach and recede candidates, skipping
pairs whose approach frequency is not higher, computing the Doppler speed and
the composite confidence, and keeping pairs at or above the confidence
threshold. -/
def combinePairs (approachFreqs recedeFreqs : List RankedFreq)
    (approachQuality recedeQuality : ℚ) (confidenceThreshold : ℚ) :
    List SpeedCalculation :=
  (approachFreqs.take 5).flatMap fun a =>
    (recedeFreqs.take 5).filterMap fun r =>
      if a.frequency ≤ r.frequency then none
      else if confidenceThreshold ≤ pairConfidence a r approachQuality recedeQuality then
        some ⟨a.frequency, r.frequency, a.power, r.power, a.rank, r.rank,
          pairSpeed a r, pairConfidence a r approachQuality recedeQuality,
          a.frequency - r.frequency,
          (a.frequency - r.frequency) / r.frequency⟩
      else none

/-- `combineAnalyses` after the pair loop: survivors sorted by confidence
descending; `bestSpeed` is the head of this list, and the combined result is
valid exactly when the list is non-empty. -/
def speedCalculationsOf (approachFreqs recedeFreqs : List RankedFreq)
    (approachQuality recedeQuality : ℚ) (confidenceThreshold : ℚ) :
    List SpeedCalculation :=
  sortDescBy (fun c => c.confidence)
    (combinePairs approachFreqs recedeFreqs approachQuality recedeQuality
      confidenceThreshold)

/-! ## Tertiary strategy (audio-analyzer.js, `tryTertiaryStrategy`) -/

/-- A frequency candidate as consumed by the tertiary strategy (only the
`frequency` field is read there). -/
structure FreqCandidate where
  frequency : ℚ
  deriving DecidableEq

/-- The best-pair result object of `tryTertiaryStrategy` (its constant fields
`valid: true` and `strategy: 'Tertiary'` are left implicit; the whole result
is `none` for the `{ valid: false }` outcome). -/
structure TertiaryResult where
  speedMph : ℚ
  speedKmh : ℚ
  approachFreq : ℚ
  recedeFreq : ℚ
  error : ℚ
  accuracy : ℚ
  deriving DecidableEq

/-- The very lenient calculator of the tertiary strategy:
`setSpeedLimits(0, 1000)` on a fresh default calculator. -/
def veryLenientCalculator : DopplerSpeedCalculator :=
  { minReasonableSpeed := 0, maxReasonableSpeed := 1000 }

/-- JavaScript truthiness of the optional expected speed:
`expectedSpeed ? ... : ...` treats both `null` and `0` as absent. -/
def anchorValue : Option ℚ → Option ℚ
  | none => none
  | some e => if e = 0 then none else some e

/-- The candidate pair sequence of `tryTertiaryStrategy`: the top ten
approach candidates crossed with the top ten recede candidates, each pair
tried in both orderings. -/
def tertiaryPairs (approachFrequencies recedeFrequencies : List FreqCandidate) :
    List (ℚ × ℚ) :=
  (approachFrequencies.take 10).flatMap fun a =>
    (recedeFrequencies.take 10).flatMap fun r =>
      [(a.frequency, r.frequency), (r.frequency, a.frequency)]

/-- The `const speedKmh` of the tertiary pair loop. -/
def tertiarySpeedKmh (p : ℚ × ℚ) : ℚ :=
  veryLenientCalculator.calculateSpeed p.1 p.2

/-- The `const error` of the tertiary pair loop:
`expectedSpeed ? Math.abs(speedMph - expectedSpeed) : 0`. -/
def tertiaryError (expectedSpeed : Option ℚ) (speedMph : ℚ) : ℚ :=
  match anchorValue expectedSpeed with
  | some e => mathAbs (speedMph - e)
  | none => 0

/-- The `accuracy` field of the tertiary pair loop:
`expectedSpeed ? 100 - (error / expectedSpeed * 100) : 100`. -/
def tertiaryAccuracy (expectedSpeed : Option ℚ) (error : ℚ) : ℚ :=
  match anchorValue expectedSpeed with
  | some e => 100 - error / e * 100
  | none => 100

/-- The body of the tertiary pair loop: a pair qualifies when its speed is
strictly between 0 and 1000 km/h; a qualifying pair yields a result carrying
the mph speed, the anchored error (0 with no anchor) and the accuracy. -/
def tertiaryCandidate (expectedSpeed : Option ℚ) (p : ℚ × ℚ) :
    Option TertiaryResult :=
  if 0 < tertiarySpeedKmh p ∧ tertiarySpeedKmh p < 1000 then
    some ⟨tertiarySpeedKmh p * 0.621371, tertiarySpeedKmh p, p.1, p.2,
      tertiaryError expectedSpeed (tertiarySpeedKmh p * 0.621371),
      tertiaryAccuracy expectedSpeed
        (tertiaryError expectedSpeed (tertiarySpeedKmh p * 0.621371))⟩
  else none

/-- `tryTertiaryStrategy` (audio-analyzer.js lines 576-622): fold over all
candidate pairs keeping the first result attaining the minimum error
(`bestError` starts at Infinity, so the first qualifying pair is always
accepted, and is replaced only on a strictly smaller error). -/
def tryTertiaryStrategy (approachFrequencies recedeFrequencies : List FreqCandidate)
    (expectedSpeed : Option ℚ) : Option TertiaryResult :=
  (tertiaryPairs approachFrequencies recedeFrequencies).foldl
    (fun acc p =>
      match tertiaryCandidate expectedSpeed p with
      | none => acc
      | some cand => minStep (fun c => c.error) acc cand)
    none

/-! ## AudioSlicer (audio-slicer.js) -/

/-- Sections object shared by the slicing strategies. The per-section detail
objects of the source are omitted; durations are in seconds. -/
structure Sections where
  approaching : List ℚ
  receding : List ℚ
  approachDuration : ℚ
  recedeDuration : ℚ
  strategy : String

/-- `AudioSlicer.extractSections`: adaptive margins around the closest
approach, with the section boundaries clamped by `minSectionSamples = 2048`
(`Math.max` on the approach end, `Math.min` on the recede start). -/
def extractSections (samples : List ℚ) (sampleRate : ℚ)
    (closestApproachIndex : ℤ) (duration : ℚ) : Sections :=
  let marginSeconds := min 0.3 (duration * 0.2)
  let marginSamples := ⌊marginSeconds * sampleRate⌋
  let minSectionSamples : ℤ := 2048
  let approachEnd := max (closestApproachIndex - marginSamples) minSectionSamples
  let recedeStart := min (closestApproachIndex + marginSamples)
      ((samples.length : ℤ) - minSectionSamples)
  let approachSection := jsSlice samples 0 approachEnd
  let recedeSection := jsSliceFrom samples recedeStart
  ⟨approachSection, recedeSection,
    (approachSection.length : ℚ) / sampleRate,
    (recedeSection.length : ℚ) / sampleRate, "closest_approach"⟩

/-- `AudioSlicer.extractShortFileSections`: first and last quarters. -/
def extractShortFileSections (samples : List ℚ) (sampleRate : ℚ) : Sections :=
  let quarterLength := samples.length / 4
  let approachSection := jsSlice samples 0 (quarterLength : ℤ)
  let recedeSection := jsSliceFrom samples (-(quarterLength : ℤ))
  ⟨approachSection, recedeSection,
    (approachSection.length : ℚ) / sampleRate,
    (recedeSection.length : ℚ) / sampleRate, "short_file_quarters"⟩

/-- Validation result of `validateSections`. Error and warning messages are
kept without their interpolated numbers, and the `sectionDetails` object is
omitted. -/
structure SectionValidation where
  isValid : Bool
  errors : List String
  warnings : List String
  strategy : String
  deriving DecidableEq

/-- `AudioSlicer.validateSections` (audio-slicer.js lines 123-165): one error
per too-short section, a warning on a length ratio beyond 5:1 or below 1:5,
and `isValid` exactly when there are no errors. (In the source a missing
section also errors; sections are always present here. With an empty receding
section the source's ratio is Infinity or NaN; the rational model yields 0,
which also only warns.) -/
def validateSections (sections : Sections) (minSamples : ℕ := 2048) :
    SectionValidation :=
  let errors :=
    (if sections.approaching.length < minSamples then
      ["Approaching section too short"] else []) ++
    (if sections.receding.length < minSamples then
      ["Receding section too short"] else [])
  let ratio := (sections.approaching.length : ℚ) / (sections.receding.length : ℚ)
  let warnings :=
    if 5 < ratio ∨ ratio < 0.2 then ["Section length imbalance"] else []
  ⟨decide (errors = []), errors, warnings, sections.strategy⟩

/-- One evaluated strategy of `extractBestSections`. -/
structure StrategyEval where
  name : String
  sections : Sections
  validation : SectionValidation
  confidence : ℚ

/-- Result object of `extractBestSections`: the chosen strategy's sections
spread together with the selection metadata. -/
structure BestSections where
  approaching : List ℚ
  receding : List ℚ
  approachDuration : ℚ
  recedeDuration : ℚ
  strategy : String
  selectedStrategy : String
  confidence : ℚ
  validation : SectionValidation

/-- The fallback `simple_quarters` sections built inline by
`extractBestSections`. -/
def fallbackQuarterSections (samples : List ℚ) (sampleRate : ℚ) : Sections :=
  ⟨jsSlice samples 0 ((samples.length / 4 : ℕ) : ℤ),
    jsSliceFrom samples (-((samples.length / 4 : ℕ) : ℤ)),
    ((samples.length / 4 : ℕ) : ℚ) / sampleRate,
    ((samples.length / 4 : ℕ) : ℚ) / sampleRate,
    "simple_quarters"⟩

/-- The first element of `sort((a, b) => b.confidence - a.confidence)`; the
default is never used because the fallback strategy is always present. -/
def pickTopStrategy (l : List StrategyEval) (dflt : StrategyEval) : StrategyEval :=
  match sortDescBy (fun s => s.confidence) l with
  | b :: _ => b
  | [] => dflt

/-- Strategy 1 of `extractBestSections`: closest approach, evaluated only
when an index is supplied and strictly inside the buffer; confidence 0.9
when its (default-threshold) validation passes, 0.1 otherwise. -/
def closestApproachEvals (samples : List ℚ) (sampleRate : ℚ)
    (closestApproachIndex : Option ℤ) : List StrategyEval :=
  match closestApproachIndex with
  | some i =>
    if 0 < i ∧ i < (samples.length : ℤ) then
      [⟨"closest_approach",
        extractSections samples sampleRate i ((samples.length : ℚ) / sampleRate),
        validateSections
          (extractSections samples sampleRate i ((samples.length : ℚ) / sampleRate)),
        if (validateSections (extractSections samples sampleRate i
            ((samples.length : ℚ) / sampleRate))).isValid then 0.9 else 0.1⟩]
    else []
  | none => []

/-- Strategy 2 of `extractBestSections`: short-file quarters for durations
below 5 seconds, validated against the lower 1024-sample threshold;
confidence 0.7 or 0.2. -/
def shortFileEvals (samples : List ℚ) (sampleRate : ℚ) : List StrategyEval :=
  if (samples.length : ℚ) / sampleRate < 5 then
    [⟨"short_file_quarters", extractShortFileSections samples sampleRate,
      validateSections (extractShortFileSections samples sampleRate) 1024,
      if (validateSections (extractShortFileSections samples sampleRate)
          1024).isValid then 0.7 else 0.2⟩]
  else []

/-- Strategy 3 of `extractBestSections`: the simple-quarters fallback,
always evaluated, against the even lower 512-sample threshold; confidence
0.5 or 0.1. -/
def simpleQuartersEval (samples : List ℚ) (sampleRate : ℚ) : StrategyEval :=
  ⟨"simple_quarters", fallbackQuarterSections samples sampleRate,
    validateSections (fallbackQuarterSections samples sampleRate) 512,
    if (validateSections (fallbackQuarterSections samples sampleRate)
        512).isValid then 0.5 else 0.1⟩

/-- The `strategies` array of `extractBestSections`, in evaluation order. -/
def allStrategyEvals (samples : List ℚ) (sampleRate : ℚ)
    (closestApproachIndex : Option ℤ) : List StrategyEval :=
  closestApproachEvals samples sampleRate closestApproachIndex ++
    shortFileEvals samples sampleRate ++ [simpleQuartersEval samples sampleRate]

/-- The strategy selection of `extractBestSections`: the highest-confidence
validating strategy, or the highest-confidence one overall when none
validates (the default of `pickTopStrategy` is never reached because the
fallback strategy is always present). -/
def bestStrategyEval (samples : List ℚ) (sampleRate : ℚ)
    (closestApproachIndex : Option ℤ) : StrategyEval :=
  if ((allStrategyEvals samples sampleRate closestApproachIndex).filter
      fun s => s.validation.isValid).length ≠ 0 then
    pickTopStrategy
      ((allStrategyEvals samples sampleRate closestApproachIndex).filter
        fun s => s.validation.isValid)
      (simpleQuartersEval samples sampleRate)
  else
    pickTopStrategy (allStrategyEvals samples sampleRate closestApproachIndex)
      (simpleQuartersEval samples sampleRate)

/-- `AudioSlicer.extractBestSections` (audio-slicer.js lines 174-239): the
chosen strategy's sections spread together with the selection metadata. -/
def extractBestSections (samples : List ℚ) (sampleRate : ℚ)
    (closestApproachIndex : Option ℤ) : BestSections :=
  ⟨(bestStrategyEval samples sampleRate closestApproachIndex).sections.approaching,
    (bestStrategyEval samples sampleRate closestApproachIndex).sections.receding,
    (bestStrategyEval samples sampleRate closestApproachIndex).sections.approachDuration,
    (bestStrategyEval samples sampleRate closestApproachIndex).sections.recedeDuration,
    (bestStrategyEval samples sampleRate closestApproachIndex).sections.strategy,
    (bestStrategyEval samples sampleRate closestApproachIndex).name,
    (bestStrategyEval samples sampleRate closestApproachIndex).confidence,
    (bestStrategyEval samples sampleRate closestApproachIndex).validation⟩

/-! ## ApproachDetector (audio-timing-strategy.js) -/

/-- `isShortFile`: a duration below 2 seconds. -/
def isShortFile (duration : ℚ) : Bool := decide (duration < 2)

/-- `calculateRMSEnergy` with the final square root dropped: the comparisons
in `detectClosestApproach` are between nonnegative values (sums of squares
over the window size, starting from 0), and the square root is strictly
monotone there, so comparing mean squares changes no comparison outcome and
no returned index. -/
def meanSquareEnergy (samples : List ℚ) (startIndex windowSize : ℕ) : ℚ :=
  (((samples.drop startIndex).take windowSize).foldl
    (fun acc x => acc + x * x) 0) / (windowSize : ℚ)

/-- `ApproachDetector.detectClosestApproach` (simple static version): slide a
window in quarter-window steps over the samples and return the centre of the
highest-energy window (strict improvement only, so the earliest maximal
window wins); 0 when the buffer is shorter than one window. -/
def detectClosestApproach (samples : List ℚ) (windowSize : ℕ := 2048) : ℕ :=
  (((List.range
        (if samples.length < windowSize then 0
         else (samples.length - windowSize) / (windowSize / 4) + 1)).map
      (fun k => k * (windowSize / 4))).foldl
    (fun acc i =>
      if acc.2 < meanSquareEnergy samples i windowSize then
        (i + windowSize / 2, meanSquareEnergy samples i windowSize)
      else acc)
    ((0 : ℕ), (0 : ℚ))).1

/-- One entry of the (smoothed) energy profile consumed by the peak finder. -/
structure EnergyEntry where
  index : ℕ
  energy : ℚ
  time : ℚ
  deriving DecidableEq

/-- One detected peak of `findEnergyPeaks`. -/
structure EnergyPeak where
  index : ℕ
  energy : ℚ
  prominence : ℚ
  normalizedProminence : ℚ
  time : ℚ
  confidence : ℚ
  deriving DecidableEq

/-- `Math.max(...energyProfile.map(p => p.energy))` for the non-empty
profiles the peak finder operates on (it requires at least 3 entries). -/
def maxEnergy (profile : List EnergyEntry) : ℚ :=
  match profile with
  | [] => 0
  | e :: rest => rest.foldl (fun m x => max m x.energy) e.energy

/-- Indexing into the profile (indices stay in range in the source loops). -/
def entryAt (profile : List EnergyEntry) (i : ℕ) : EnergyEntry :=
  (profile.get? i).getD ⟨0, 0, 0⟩

/-- The prominence search radius: `min(20, floor(length / 10))`. -/
def searchRadius (len : ℕ) : ℕ := min 20 (len / 10)

/-- The minimum energy over the bounded neighbourhood of `i` (both ends
clamped to the profile), excluding `i` itself, seeded with the energy at
`i`. -/
def minSurrounding (profile : List EnergyEntry) (i lo hi : ℕ) : ℚ :=
  (((List.range (hi + 1 - lo)).map (fun k => k + lo)).foldl
    (fun m j =>
      if j ≠ i ∧ (entryAt profile j).energy < m then (entryAt profile j).energy
      else m)
    (entryAt profile i).energy)

/-- The prominence of position `i`: its energy above the minimum of its
clamped neighbourhood. -/
def prominenceAt (profile : List EnergyEntry) (i : ℕ) : ℚ :=
  (entryAt profile i).energy -
    minSurrounding profile i (i - searchRadius profile.length)
      (min (profile.length - 1) (i + searchRadius profile.length))

/-- `ApproachDetector.findEnergyPeaks` (audio-timing-strategy.js lines
176-217): every interior strict local maximum whose prominence reaches
`maxEnergy * prominence` becomes a peak with
`confidence = min(1, prominence / (maxEnergy * 0.5))`; peaks are sorted by
prominence descending. -/
def findEnergyPeaks (profile : List EnergyEntry) (prominence : ℚ := 0.1) :
    List EnergyPeak :=
  if profile.length < 3 then []
  else
    sortDescBy (fun p => p.prominence)
      (((List.range (profile.length - 2)).map (fun k => k + 1)).filterMap fun i =>
        if (entryAt profile (i - 1)).energy < (entryAt profile i).energy ∧
            (entryAt profile (i + 1)).energy < (entryAt profile i).energy then
          if maxEnergy profile * prominence ≤ prominenceAt profile i then
            some ⟨(entryAt profile i).index, (entryAt profile i).energy,
              prominenceAt profile i,
              prominenceAt profile i / maxEnergy profile,
              (entryAt profile i).time,
              min 1 (prominenceAt profile i / (maxEnergy profile * 0.5))⟩
          else none
        else none)

/-- Result object of `selectClosestApproachPeak` (`estimatedIndex` always
equals `closestApproachIndex` and is omitted; `warning` records whether the
low-confidence warning field is present; reasons are kept without their
interpolated confidence values). -/
structure ApproachSelection where
  found : Bool
  confidence : ℚ
  closestApproachIndex : ℕ
  warning : Bool
  reason : String
  deriving DecidableEq

/-- `ApproachDetector.selectClosestApproachPeak` (audio-timing-strategy.js
lines 227-275): the first peak (prominence order) with confidence at or
above the threshold; otherwise the most prominent peak with a warning; with
no peaks, not found with the index defaulted to the profile midpoint. -/
def selectClosestApproachPeak (peaks : List EnergyPeak)
    (energyProfile : List EnergyEntry) (minimumConfidence : ℚ := 0.3) :
    ApproachSelection :=
  match peaks with
  | [] =>
    ⟨false, 0, energyProfile.length / 2, false, "No energy peaks detected"⟩
  | p₀ :: _ =>
    match peaks.find? (fun p => decide (minimumConfidence ≤ p.confidence)) with
    | some p => ⟨true, p.confidence, p.index, false, "High confidence peak detected"⟩
    | none => ⟨true, p₀.confidence, p₀.index, true, "Low confidence peak selected"⟩

/-! ## AudioAnalyzer.extractSections (audio-analyzer.js lines 379-427) -/

/-- The sections object returned by the analyzer-level `extractSections`:
whatever the chosen slicer returned (its `strategy` tag when it has one),
plus the `sectioningMethod` tag added by the analyzer. -/
structure AnalyzerSections where
  approaching : List ℚ
  receding : List ℚ
  approachDuration : ℚ
  recedeDuration : ℚ
  strategy : Option String
  sectioningMethod : String

/-- `AudioAnalyzer.extractSimpleSections`: first quarter and a slice from
`totalSamples - quarterLength` (a positive index, unlike the slicer's
`-quarterLength`). The returned object carries no `strategy` tag. -/
def extractSimpleSections (samples : List ℚ) (sampleRate : ℚ) :
    AnalyzerSections :=
  let quarterLength := samples.length / 4
  ⟨jsSlice samples 0 (quarterLength : ℤ),
    jsSliceFrom samples ((samples.length - quarterLength : ℕ) : ℤ),
    (quarterLength : ℚ) / sampleRate, (quarterLength : ℚ) / sampleRate,
    none, ""⟩

/-- JavaScript truthiness of the object returned by `validateSections`: an
object is always truthy, whatever its `isValid` field, so a guard testing
the object itself is always taken. -/
def jsObjectTruthy (v : SectionValidation) : Bool := true

/-- `AudioAnalyzer.extractSections`: short files go to quarters; otherwise
closest-approach slicing, guarded by `if (AudioSlicer.validateSections(...))`
— a test of the validation object itself — before falling back to
quarters. -/
def analyzerExtractSections (samples : List ℚ) (sampleRate : ℚ)
    (strategy : String := "peak_rms_energy") : AnalyzerSections :=
  let duration := (samples.length : ℚ) / sampleRate
  if strategy = "peak_rms_energy" then
    if isShortFile duration then
      let shortSections := extractShortFileSections samples sampleRate
      ⟨shortSections.approaching, shortSections.receding,
        shortSections.approachDuration, shortSections.recedeDuration,
        some shortSections.strategy, "quarters"⟩
    else
      let sections := extractSections samples sampleRate
        ((detectClosestApproach samples : ℕ) : ℤ) duration
      if jsObjectTruthy (validateSections sections) then
        ⟨sections.approaching, sections.receding, sections.approachDuration,
          sections.recedeDuration, some sections.strategy, "peak_rms_energy"⟩
      else
        { extractSimpleSections samples sampleRate with sectioningMethod := "quarters" }
  else
    { extractSimpleSections samples sampleRate with sectioningMethod := "quarters" }

/-! ## SpectrumAnalyzer (spectrum-analyzer.js, pure-js) -/

/-- A frequency-power candidate of `getStrongestFrequencies`. -/
structure FreqPower where
  frequency : ℚ
  power : ℚ
  deriving DecidableEq

/-- The two arrays filled together by `calculatePowerSpectrum`. They always
have the same length (one entry per bin of the first half-spectrum). -/
structure SpectrumData where
  powerSpectrum : List ℚ
  frequencies : List ℚ

/-- The analyzer state: the copied sample buffer, the configuration, and
`powerSpectrum`/`frequencies`, which are both `null` until
`calculatePowerSpectrum` has run (modelled as one optional pair, matching
the class invariant that they are set together). -/
structure SpectrumAnalyzerState where
  samples : List ℚ
  sampleRate : ℚ
  windowType : String
  computed : Option SpectrumData

/-- The frequency array filled by `calculatePowerSpectrum`:
`frequencies[i] = i * sampleRate / fftLength` over the first `halfLength`
bins. -/
def binFrequencies (sampleRate : ℚ) (fftLength halfLength : ℕ) : List ℚ :=
  (List.range halfLength).map fun i : ℕ => (i : ℚ) * sampleRate / (fftLength : ℚ)

/-- The candidates array of `getStrongestFrequencies`, built in bin order
(frequencies ascending). -/
def spectrumCandidates (frequencies powerSpectrum : List ℚ) : List FreqPower :=
  List.zipWith FreqPower.mk frequencies powerSpectrum

/-- `SpectrumAnalyzer.getStrongestFrequencies`: an error before
`calculatePowerSpectrum` has run; otherwise the candidates sorted by power
descending (JavaScript's stable sort), truncated to `count`. -/
def getStrongestFrequencies (st : SpectrumAnalyzerState) (count : ℕ := 5) :
    Except String (List FreqPower) :=
  match st.computed with
  | none => Except.error "Must call calculatePowerSpectrum() first"
  | some d =>
    Except.ok ((sortDescBy (fun c => c.power)
      (spectrumCandidates d.frequencies d.powerSpectrum)).take count)

/-- `SpectrumAnalyzer.findPeakFrequency`: an error before
`calculatePowerSpectrum` has run; otherwise the frequency of the bin of
maximal power, scanning from bin 1 with strict improvement. -/
def findPeakFrequency (st : SpectrumAnalyzerState) : Except String ℚ :=
  match st.computed with
  | none => Except.error "Must call calculatePowerSpectrum() first"
  | some d =>
    Except.ok (d.frequencies.getD
      (((List.range d.powerSpectrum.length).drop 1).foldl
        (fun acc i =>
          if acc.1 < d.powerSpectrum.getD i 0 then (d.powerSpectrum.getD i 0, i)
          else acc)
        ((0 : ℚ), (0 : ℕ))).2
      0)

/-! ## Heap model for the mutation claims

JavaScript arrays live on a heap and are passed by reference; the operations
below model each array-creating or array-writing statement of the source
explicitly, so that non-mutation of the caller's buffer is a provable (and
falsifiable) statement rather than a byproduct of a pure embedding. -/

/-- The array heap: one slot per allocated array, addressed by index. -/
structure Heap where
  arrs : List (List ℚ)

/-- Dereference (out-of-range reads never occur in the modelled code). -/
def Heap.get (h : Heap) (r : ℕ) : List ℚ := h.arrs.getD r []

/-- Allocate a fresh array (array literals, spreads, `slice`, `new Array`). -/
def Heap.alloc (h : Heap) (v : List ℚ) : Heap × ℕ :=
  (⟨h.arrs ++ [v]⟩, h.arrs.length)

/-- Overwrite an existing array in place (indexed assignment loops). -/
def Heap.write (h : Heap) (r : ℕ) (v : List ℚ) : Heap :=
  ⟨h.arrs.set r v⟩

/-- The heap-level state of a `SpectrumAnalyzer` instance. -/
structure SAHeapState where
  samplesRef : ℕ
  sampleRate : ℚ
  windowType : String
  powerSpectrumRef : Option ℕ
  frequenciesRef : Option ℕ

/-- `new SpectrumAnalyzer(samples, sampleRate, options)`:
`this.samples = [...samples]` allocates a fresh copy of the caller's array;
`powerSpectrum` and `frequencies` start as `null`. -/
def spectrumAnalyzerNew (h : Heap) (callerRef : ℕ) (rate : ℚ) (wt : String) :
    Heap × SAHeapState :=
  let p := h.alloc (h.get callerRef)
  (p.1, ⟨p.2, rate, wt, none, none⟩)

/-- `calculatePowerSpectrum` at the heap level. The numeric kernels are
parameters: `windowFun` is `WindowingUtils.applyWindowByType` (returns a new
array), `fftFun` the external forward transform (allocates and mutates only
its own complex array), and `binValue` the per-bin
`sqrt(re² + im²) * windowGain / fftLength`. The method reads `this.samples`,
builds the padded/truncated copy (`[...this.samples]` plus `concat`/`slice`,
all fresh arrays), allocates `new Array(halfLength)` for `powerSpectrum` and
`frequencies`, and then writes every entry of those two fresh arrays. -/
def calculatePowerSpectrumHeap (h : Heap) (st : SAHeapState)
    (windowFun fftFun : List ℚ → List ℚ) (binValue : ℚ → ℚ → ℚ) :
    Heap × SAHeapState :=
  let samples := h.get st.samplesRef
  let fftLength := 2 ^ Nat.clog 2 samples.length
  let processed :=
    if samples.length < fftLength then
      samples ++ List.replicate (fftLength - samples.length) 0
    else samples.take fftLength
  let fftResult := fftFun (windowFun processed)
  let halfLength := fftLength / 2
  let p1 := h.alloc (List.replicate halfLength 0)
  let p2 := p1.1.alloc (List.replicate halfLength 0)
  let h3 := p2.1.write p1.2 ((List.range halfLength).map fun i =>
    binValue (fftResult.getD (2 * i) 0) (fftResult.getD (2 * i + 1) 0))
  let h4 := h3.write p2.2 ((List.range halfLength).map fun i : ℕ =>
    (i : ℚ) * st.sampleRate / (fftLength : ℚ))
  (h4, { st with powerSpectrumRef := some p1.2, frequenciesRef := some p2.2 })

/-- A sectioning step `samples.slice(s, e)`: allocates a fresh array. -/
def sliceAlloc (h : Heap) (src : ℕ) (s e : ℤ) : Heap × ℕ :=
  h.alloc (jsSlice (h.get src) s e)

/-- `new FrequencyAnalysis(samples, ...)`: `this.samples = [...samples]`,
again a fresh copy of the caller's array. -/
def frequencyAnalysisNew (h : Heap) (callerRef : ℕ) : Heap × ℕ :=
  h.alloc (h.get callerRef)

/-! # Theorems -/

/-! ## Sorting and folding helper lemmas -/

theorem mem_sortDescBy {α : Type} {key : α → ℚ} {l : List α} {x : α} :
    x ∈ sortDescBy key l ↔ x ∈ l := List.mem_insertionSort _

theorem pairwise_orderedInsert_descBy {α : Type} {key : α → ℚ} {R : α → α → Prop}
    {l : List α} {x : α} (hx : ∀ y ∈ l, R x y)
    (hl : l.Pairwise fun a b => key b < key a ∨ (key a = key b ∧ R a b)) :
    (List.orderedInsert (fun a b => key b ≤ key a) x l).Pairwise
      (fun a b => key b < key a ∨ (key a = key b ∧ R a b)) := by
  induction l with
  | nil => simp [List.orderedInsert]
  | cons y ys ih =>
    rw [List.orderedInsert]
    by_cases h : key y ≤ key x
    · rw [if_pos h]
      refine List.Pairwise.cons ?_ hl
      intro z hz
      have hsorted : ∀ z ∈ ys, key z ≤ key y := by
        intro z hz
        rcases List.rel_of_pairwise_cons hl hz with h1 | ⟨h1, _⟩
        · exact le_of_lt h1
        · exact le_of_eq h1.symm
      rcases List.mem_cons.mp hz with rfl | hz
      · rcases lt_or_eq_of_le h with h1 | h1
        · exact Or.inl h1
        · exact Or.inr ⟨h1.symm, hx z (List.mem_cons_self _ _)⟩
      · have hzy : key z ≤ key y := hsorted z hz
        rcases lt_or_eq_of_le (le_trans hzy h) with h1 | h1
        · exact Or.inl h1
        · exact Or.inr ⟨h1.symm, hx z (List.mem_cons_of_mem _ hz)⟩
    · rw [if_neg h]
      refine List.Pairwise.cons ?_ (ih (fun z hz => hx z (List.mem_cons_of_mem _ hz))
        hl.of_cons)
      intro z hz
      rcases (List.mem_orderedInsert _).mp hz with rfl | hz
      · exact Or.inl (lt_of_not_le h)
      · exact List.rel_of_pairwise_cons hl hz

/-- The sorted output of `sortDescBy` is descending in `key`, and any relation
`R` holding pairwise on the input (in input order) still holds between
equal-key elements of the output: the sort is stable. -/
theorem pairwise_sortDescBy {α : Type} {key : α → ℚ} {R : α → α → Prop} {l : List α}
    (hl : l.Pairwise R) :
    (sortDescBy key l).Pairwise (fun a b => key b < key a ∨ (key a = key b ∧ R a b)) := by
  induction l with
  | nil => exact List.Pairwise.nil
  | cons x xs ih =>
    have hx : ∀ y ∈ sortDescBy key xs, R x y := fun _ hy =>
      List.rel_of_pairwise_cons hl (mem_sortDescBy.mp hy)
    exact pairwise_orderedInsert_descBy hx (ih hl.of_cons)

theorem pairwise_trivial {α : Type} (l : List α) : l.Pairwise (fun _ _ => True) := by
  induction l with
  | nil => exact List.Pairwise.nil
  | cons x xs ih => exact List.Pairwise.cons (fun _ _ => trivial) ih

theorem sorted_sortDescBy {α : Type} (key : α → ℚ) (l : List α) :
    (sortDescBy key l).Pairwise (fun a b => key b ≤ key a) := by
  refine (pairwise_sortDescBy (R := fun _ _ => True) (pairwise_trivial l)).imp ?_
  rintro a b (h | ⟨h, _⟩)
  · exact le_of_lt h
  · exact le_of_eq h.symm

/-- The result of `foldMinBy` is the first element of the list attaining the
minimum key: everything before it is strictly larger, everything is at least
as large. -/
theorem foldMinBy_spec {α : Type} (key : α → ℚ) (x : α) (l : List α) :
    ∃ l₁ l₂, x :: l = l₁ ++ foldMinBy key x l :: l₂ ∧
      (∀ y ∈ l₁, key (foldMinBy key x l) < key y) ∧
      (∀ y ∈ x :: l, key (foldMinBy key x l) ≤ key y) := by
  induction l generalizing x with
  | nil =>
    exact ⟨[], [], rfl, by simp, by simp [foldMinBy]⟩
  | cons c cs ih =>
    have hstep : foldMinBy key x (c :: cs) =
        foldMinBy key (if key c < key x then c else x) cs := rfl
    by_cases hc : key c < key x
    · rw [hstep, if_pos hc]
      obtain ⟨m₁, m₂, hsplit, hbefore, hmin⟩ := ih c
      refine ⟨x :: m₁, m₂, by rw [List.cons_append, hsplit], ?_, ?_⟩
      · intro y hy
        rcases List.mem_cons.mp hy with rfl | hy
        · exact lt_of_le_of_lt (hmin c (List.mem_cons_self _ _)) hc
        · exact hbefore y hy
      · intro y hy
        rcases List.mem_cons.mp hy with rfl | hy
        · exact le_of_lt (lt_of_le_of_lt (hmin c (List.mem_cons_self _ _)) hc)
        · exact hmin y hy
    · rw [hstep, if_neg hc]
      have hxc : key x ≤ key c := le_of_not_lt hc
      obtain ⟨m₁, m₂, hsplit, hbefore, hmin⟩ := ih x
      cases m₁ with
      | nil =>
        have hx : foldMinBy key x cs = x := by
          have h0 := hsplit
          simp only [List.nil_append] at h0
          exact (List.cons_eq_cons.mp h0).1.symm
        refine ⟨[], c :: cs, by simp [hx], by simp, ?_⟩
        intro y hy
        rcases List.mem_cons.mp hy with rfl | hy
        · exact hmin y (List.mem_cons_self _ _)
        · rcases List.mem_cons.mp hy with rfl | hy
          · rw [hx]; exact hxc
          · exact hmin y (List.mem_cons_of_mem _ hy)
      | cons z m₁t =>
        rw [List.cons_append] at hsplit
        have hz1 : z = x := (List.cons_eq_cons.mp hsplit).1.symm
        have hz2 : cs = m₁t ++ foldMinBy key x cs :: m₂ := (List.cons_eq_cons.mp hsplit).2
        have hrx : key (foldMinBy key x cs) < key x := by
          have h0 := hbefore z (List.mem_cons_self _ _)
          rw [hz1] at h0
          exact h0
        refine ⟨x :: c :: m₁t, m₂, ?_, ?_, ?_⟩
        · show x :: c :: cs = (x :: c :: m₁t) ++ foldMinBy key x cs :: m₂
          rw [List.cons_append, List.cons_append]
          exact congrArg (List.cons x) (congrArg (List.cons c) hz2)
        · intro y hy
          rcases List.mem_cons.mp hy with rfl | hy
          · exact hrx
          · rcases List.mem_cons.mp hy with rfl | hy
            · exact lt_of_lt_of_le hrx hxc
            · exact hbefore y (List.mem_cons_of_mem _ hy)
        · intro y hy
          rcases List.mem_cons.mp hy with rfl | hy
          · exact hmin y (List.mem_cons_self _ _)
          · rcases List.mem_cons.mp hy with rfl | hy
            · exact le_of_lt (lt_of_lt_of_le hrx hxc)
            · exact hmin y (List.mem_cons_of_mem _ hy)

theorem foldMinBy_mem {α : Type} (key : α → ℚ) (x : α) (l : List α) :
    foldMinBy key x l ∈ x :: l := by
  obtain ⟨l₁, l₂, hsplit, -, -⟩ := foldMinBy_spec key x l
  rw [hsplit]
  exact List.mem_append.mpr (Or.inr (List.mem_cons_self _ _))

theorem keepFirstMin_some_eq {α : Type} (key : α → ℚ) (b : α) (l : List α) :
    l.foldl (minStep key) (some b) = some (foldMinBy key b l) := by
  induction l generalizing b with
  | nil => rfl
  | cons c cs ih =>
    show List.foldl _ (if key c < key b then some c else some b) cs = _
    by_cases h : key c < key b
    · rw [if_pos h, ih c]
      have h0 : foldMinBy key b (c :: cs) = foldMinBy key c cs := by
        simp [foldMinBy, List.foldl_cons, if_pos h]
      rw [h0]
    · rw [if_neg h, ih b]
      have h0 : foldMinBy key b (c :: cs) = foldMinBy key b cs := by
        simp [foldMinBy, List.foldl_cons, if_neg h]
      rw [h0]

theorem keepFirstMin_cons {α : Type} (key : α → ℚ) (x : α) (l : List α) :
    keepFirstMin key (x :: l) = some (foldMinBy key x l) := by
  rw [keepFirstMin, List.foldl_cons]
  exact keepFirstMin_some_eq key x l

theorem keepFirstMin_eq_none_iff {α : Type} (key : α → ℚ) (l : List α) :
    keepFirstMin key l = none ↔ l = [] := by
  cases l with
  | nil => simp [keepFirstMin]
  | cons x xs => simp [keepFirstMin_cons]

theorem mathAbs_eq_abs (x : ℚ) : mathAbs x = |x| := by
  rcases lt_or_ge x 0 with h | h
  · rw [mathAbs, if_pos h, abs_of_neg h]
  · rw [mathAbs, if_neg (not_lt.mpr h), abs_of_nonneg h]

/-! ## Slice length lemmas -/

theorem jsSliceIndex_le (len : ℕ) (i : ℤ) : jsSliceIndex len i ≤ len := by
  unfold jsSliceIndex
  split_ifs with h
  · omega
  · exact min_le_right _ _

theorem jsSliceIndex_zero (len : ℕ) : jsSliceIndex len 0 = 0 := by
  unfold jsSliceIndex
  rw [if_neg (by omega)]
  simp

theorem jsSliceIndex_ofNat (len a : ℕ) (h : a ≤ len) :
    jsSliceIndex len (a : ℤ) = a := by
  unfold jsSliceIndex
  rw [if_neg (by omega)]
  simp [h]

theorem jsSliceIndex_neg (len a : ℕ) (h1 : 0 < a) (h2 : a ≤ len) :
    jsSliceIndex len (-(a : ℤ)) = len - a := by
  unfold jsSliceIndex
  rw [if_pos (by omega)]
  omega

theorem length_jsSlice (l : List ℚ) (s e : ℤ) :
    (jsSlice l s e).length = jsSliceIndex l.length e - jsSliceIndex l.length s := by
  unfold jsSlice
  rw [List.length_drop, List.length_take]
  have := jsSliceIndex_le l.length e
  omega

theorem length_jsSliceFrom (l : List ℚ) (s : ℤ) :
    (jsSliceFrom l s).length = l.length - jsSliceIndex l.length s := by
  unfold jsSliceFrom
  rw [length_jsSlice]
  have h : jsSliceIndex l.length (l.length : ℤ) = l.length :=
    jsSliceIndex_ofNat _ _ (le_refl _)
  omega

/-! ## Doppler calculator lemmas -/

/-- With a nonnegative lower speed limit, `calculateSpeed` never returns a
negative number: out-of-bounds calculations are reported as 0. -/
theorem calculateSpeed_nonneg (c : DopplerSpeedCalculator)
    (h : 0 ≤ c.minReasonableSpeed) (f1 f2 : ℚ) :
    0 ≤ c.calculateSpeed f1 f2 := by
  unfold DopplerSpeedCalculator.calculateSpeed
  by_cases hc : c.maxReasonableSpeed ≤ c.soundSpeed * (f1 - f2) / (f1 + f2) * 3.6 ∨
      c.soundSpeed * (f1 - f2) / (f1 + f2) * 3.6 < c.minReasonableSpeed
  · rw [if_pos hc]
  · rw [if_neg hc]
    push_neg at hc
    exact le_trans h hc.2

/-! ## Claim C2 -/

/-- Counterexample to claim C2: for `f1 = 100 > f2 = 1` the Doppler formula
gives `343 * 99 / 101 * 3.6 ≈ 1210.3` km/h, which is at or above the default
upper bound of 1000 km/h, so `calculateSpeed` returns 0 instead of the
formula value. -/
theorem claim_C2_counterexample :
    defaultCalculator.calculateSpeed 100 1 = 0 ∧
      (343 : ℚ) * (100 - 1) / (100 + 1) * 3.6 ≠ 0 := by
  constructor
  · show (if (1000 : ℚ) ≤ 343 * ((100 : ℚ) - 1) / (100 + 1) * 3.6 ∨
        343 * ((100 : ℚ) - 1) / (100 + 1) * 3.6 < 0 then (0 : ℚ)
      else 343 * ((100 : ℚ) - 1) / (100 + 1) * 3.6) = 0
    norm_num
  · norm_num

/-- Claim C2 (amended): for `f1 > f2 > 0`, whenever the Doppler formula value
`343 * (f1 - f2) / (f1 + f2) * 3.6` km/h lies below the default upper bound of
1000 km/h, `calculateSpeed` with the default sound speed and limits returns
exactly that value; outside the bound it returns 0. -/
theorem claim_C2_speed_formula (f1 f2 : ℚ) (h2 : 0 < f2) (h12 : f2 < f1)
    (hb : 343 * (f1 - f2) / (f1 + f2) * 3.6 < 1000) :
    defaultCalculator.calculateSpeed f1 f2 = 343 * (f1 - f2) / (f1 + f2) * 3.6 := by
  show (if (1000 : ℚ) ≤ 343 * (f1 - f2) / (f1 + f2) * 3.6 ∨
      343 * (f1 - f2) / (f1 + f2) * 3.6 < 0 then (0 : ℚ)
    else 343 * (f1 - f2) / (f1 + f2) * 3.6) = 343 * (f1 - f2) / (f1 + f2) * 3.6
  have hden : 0 < f1 + f2 := by linarith
  have hnum : 0 < 343 * (f1 - f2) := by nlinarith
  have hpos : 0 < 343 * (f1 - f2) / (f1 + f2) * 3.6 := by
    have hq : 0 < 343 * (f1 - f2) / (f1 + f2) := div_pos hnum hden
    nlinarith
  rw [if_neg]
  push_neg
  exact ⟨hb, le_of_lt hpos⟩

/-- Witness for `claim_C2_speed_formula` at the spec's example pair
(1100 Hz, 950 Hz). -/
theorem claim_C2_speed_formula_witness :
    defaultCalculator.calculateSpeed 1100 950 = 343 * (1100 - 950) / (1100 + 950) * 3.6 :=
  claim_C2_speed_formula 1100 950 (by norm_num) (by norm_num) (by norm_num)

/-! ## Claim C3 -/

/-- Claim C3: `calculateSpeedWithValidation` reports `valid = false` for
non-positive frequencies, for frequency differences below 1 Hz, for formula
results outside the default [0, 1000) km/h bound, and for arguments in
reversed order (`f2 < f1` passed as `(f2, f1)`); and whenever it reports
`valid = false`, both speed fields are 0 and the error is non-null. -/
theorem claim_C3_validation (f1 f2 : ℚ) :
    ((f1 ≤ 0 ∨ f2 ≤ 0) →
      (defaultCalculator.calculateSpeedWithValidation f1 f2).valid = false)
    ∧ (|f1 - f2| < 1 →
      (defaultCalculator.calculateSpeedWithValidation f1 f2).valid = false)
    ∧ ((343 * (f1 - f2) / (f1 + f2) * 3.6 < 0 ∨
        1000 ≤ 343 * (f1 - f2) / (f1 + f2) * 3.6) →
      (defaultCalculator.calculateSpeedWithValidation f1 f2).valid = false)
    ∧ (0 < f2 → f2 < f1 →
      (defaultCalculator.calculateSpeedWithValidation f2 f1).valid = false)
    ∧ ((defaultCalculator.calculateSpeedWithValidation f1 f2).valid = false →
      (defaultCalculator.calculateSpeedWithValidation f1 f2).speedKMH = 0 ∧
      (defaultCalculator.calculateSpeedWithValidation f1 f2).speedMPH = 0 ∧
      (defaultCalculator.calculateSpeedWithValidation f1 f2).error ≠ none) := by
  refine ⟨?_, ?_, ?_, ?_, ?_⟩
  · intro h
    simp [DopplerSpeedCalculator.calculateSpeedWithValidation, if_pos h]
  · intro h
    rw [← mathAbs_eq_abs] at h
    by_cases h0 : f1 ≤ 0 ∨ f2 ≤ 0
    · simp [DopplerSpeedCalculator.calculateSpeedWithValidation, if_pos h0]
    · simp [DopplerSpeedCalculator.calculateSpeedWithValidation, if_neg h0, if_pos h]
  · intro h
    by_cases h0 : f1 ≤ 0 ∨ f2 ≤ 0
    · simp [DopplerSpeedCalculator.calculateSpeedWithValidation, if_pos h0]
    · by_cases h1 : mathAbs (f1 - f2) < 1
      · simp [DopplerSpeedCalculator.calculateSpeedWithValidation, if_neg h0, if_pos h1]
      · have hk : defaultCalculator.calculateSpeed f1 f2 = 0 := by
          show (if (1000 : ℚ) ≤ 343 * (f1 - f2) / (f1 + f2) * 3.6 ∨
              343 * (f1 - f2) / (f1 + f2) * 3.6 < 0 then (0 : ℚ)
            else 343 * (f1 - f2) / (f1 + f2) * 3.6) = 0
          rw [if_pos h.symm]
        simp [DopplerSpeedCalculator.calculateSpeedWithValidation, if_neg h0, if_neg h1, hk]
  · intro hf2 hlt
    have h0 : ¬ (f2 ≤ 0 ∨ f1 ≤ 0) := by push_neg; constructor <;> linarith
    by_cases h1 : mathAbs (f2 - f1) < 1
    · simp [DopplerSpeedCalculator.calculateSpeedWithValidation, if_neg h0, if_pos h1]
    · have hneg : 343 * (f2 - f1) / (f2 + f1) * 3.6 < 0 := by
        have hden : 0 < f2 + f1 := by linarith
        have hnum : 343 * (f2 - f1) < 0 := by nlinarith
        have hq : 343 * (f2 - f1) / (f2 + f1) < 0 := div_neg_of_neg_of_pos hnum hden
        nlinarith
      have hk : defaultCalculator.calculateSpeed f2 f1 = 0 := by
        show (if (1000 : ℚ) ≤ 343 * (f2 - f1) / (f2 + f1) * 3.6 ∨
            343 * (f2 - f1) / (f2 + f1) * 3.6 < 0 then (0 : ℚ)
          else 343 * (f2 - f1) / (f2 + f1) * 3.6) = 0
        rw [if_pos (Or.inr hneg)]
      simp [DopplerSpeedCalculator.calculateSpeedWithValidation, if_neg h0, if_neg h1, hk]
  · intro hv
    by_cases h0 : f1 ≤ 0 ∨ f2 ≤ 0
    · refine ⟨?_, ?_, ?_⟩ <;>
        simp [DopplerSpeedCalculator.calculateSpeedWithValidation, if_pos h0]
    · by_cases h1 : mathAbs (f1 - f2) < 1
      · refine ⟨?_, ?_, ?_⟩ <;>
          simp [DopplerSpeedCalculator.calculateSpeedWithValidation, if_neg h0, if_pos h1]
      · have hvk : (defaultCalculator.calculateSpeedWithValidation f1 f2).valid =
            decide (0 < defaultCalculator.calculateSpeed f1 f2) := by
          simp [DopplerSpeedCalculator.calculateSpeedWithValidation, if_neg h0, if_neg h1]
        rw [hvk] at hv
        have hnotpos : ¬ (0 < defaultCalculator.calculateSpeed f1 f2) := by
          simpa using hv
        have hk : defaultCalculator.calculateSpeed f1 f2 = 0 :=
          le_antisymm (not_lt.mp hnotpos)
            (calculateSpeed_nonneg defaultCalculator (le_refl 0) f1 f2)
        refine ⟨?_, ?_, ?_⟩ <;>
          simp [DopplerSpeedCalculator.calculateSpeedWithValidation, if_neg h0, if_neg h1, hk]

/-- Witness for `claim_C3_validation`: a negative frequency, a reversed-order
pair, an out-of-bound formula value, and the zeroed fields of an invalid
result. -/
theorem claim_C3_validation_witness :
    (defaultCalculator.calculateSpeedWithValidation (-5) 100).valid = false
    ∧ (defaultCalculator.calculateSpeedWithValidation 300 400).valid = false
    ∧ (defaultCalculator.calculateSpeedWithValidation 100 1).valid = false
    ∧ (defaultCalculator.calculateSpeedWithValidation (-5) 100).speedKMH = 0 := by
  have h1 := (claim_C3_validation (-5) 100).1 (Or.inl (by norm_num))
  have h4 := (claim_C3_validation 400 300).2.2.2.1 (by norm_num) (by norm_num)
  have h3 := (claim_C3_validation 100 1).2.2.1 (Or.inr (by norm_num))
  have h5 := ((claim_C3_validation (-5) 100).2.2.2.2 h1).1
  exact ⟨h1, h4, h3, h5⟩

/-! ## Claim C1 -/

/-- Behaviour of the final selection step on an arbitrary strategies list:
empty input reports `valid: false`; otherwise the selected result is the
first element attaining the minimum speed of the [10, 100] mph band when the
band is non-empty, and of the whole list otherwise. -/
theorem findBestSpeedSelection_spec (l : List TierResult) :
    (l = [] → findBestSpeedSelection l = ⟨false, none⟩)
    ∧ (l ≠ [] → (findBestSpeedSelection l).valid = true)
    ∧ (∀ r, (findBestSpeedSelection l).result = some r →
      (reasonableFilter l ≠ [] →
        ∃ l₁ l₂, reasonableFilter l = l₁ ++ r :: l₂ ∧
          (∀ y ∈ l₁, r.speedMph < y.speedMph) ∧
          (∀ y ∈ reasonableFilter l, r.speedMph ≤ y.speedMph))
      ∧ (reasonableFilter l = [] →
        ∃ l₁ l₂, l = l₁ ++ r :: l₂ ∧
          (∀ y ∈ l₁, r.speedMph < y.speedMph) ∧
          (∀ y ∈ l, r.speedMph ≤ y.speedMph))) := by
  cases l with
  | nil =>
    refine ⟨fun _ => rfl, fun h => absurd rfl h, ?_⟩
    intro r hr
    simp [findBestSpeedSelection] at hr
  | cons s₀ rest =>
    refine ⟨fun h => by simp at h, ?_, ?_⟩
    · intro _
      show (findBestSpeedSelection (s₀ :: rest)).valid = true
      rw [findBestSpeedSelection]
      cases hrf : reasonableFilter (s₀ :: rest) with
      | nil => rfl
      | cons r₀ rrest => rfl
    · intro r hr
      rw [findBestSpeedSelection] at hr
      cases hrf : reasonableFilter (s₀ :: rest) with
      | nil =>
        rw [hrf] at hr
        simp only [Option.some.injEq] at hr
        subst hr
        refine ⟨fun h => absurd rfl h, fun _ => ?_⟩
        obtain ⟨l₁, l₂, hsplit, hbefore, hmin⟩ :=
          foldMinBy_spec (fun x => x.speedMph) s₀ rest
        exact ⟨l₁, l₂, hsplit, hbefore, fun y hy => hmin y (hsplit ▸ hy)⟩
      | cons r₀ rrest =>
        rw [hrf] at hr
        simp only [Option.some.injEq] at hr
        subst hr
        refine ⟨fun _ => ?_, fun h => absurd h (by simp)⟩
        obtain ⟨l₁, l₂, hsplit, hbefore, hmin⟩ :=
          foldMinBy_spec (fun x => x.speedMph) r₀ rrest
        exact ⟨l₁, l₂, hsplit, hbefore, fun y hy => hmin y (hsplit ▸ hy)⟩

/-- Claim C1: with the strategies array built from the valid tier results in
Primary, Secondary, Tertiary order, the final selection returns the lowest
speed of the [10, 100] mph band (or of all results when the band is empty);
the selected result is the first element of the candidate pool attaining that
minimum, so exact ties go to the earlier tier; and with no valid tier result
the output has `valid = false`. -/
theorem claim_C1_final_selection (p s t : Option ℚ) :
    (buildStrategies p s t = [] →
      findBestSpeedSelection (buildStrategies p s t) = ⟨false, none⟩)
    ∧ (buildStrategies p s t ≠ [] →
      (findBestSpeedSelection (buildStrategies p s t)).valid = true)
    ∧ (∀ r, (findBestSpeedSelection (buildStrategies p s t)).result = some r →
      (reasonableFilter (buildStrategies p s t) ≠ [] →
        ∃ l₁ l₂, reasonableFilter (buildStrategies p s t) = l₁ ++ r :: l₂ ∧
          (∀ y ∈ l₁, r.speedMph < y.speedMph) ∧
          (∀ y ∈ reasonableFilter (buildStrategies p s t), r.speedMph ≤ y.speedMph))
      ∧ (reasonableFilter (buildStrategies p s t) = [] →
        ∃ l₁ l₂, buildStrategies p s t = l₁ ++ r :: l₂ ∧
          (∀ y ∈ l₁, r.speedMph < y.speedMph) ∧
          (∀ y ∈ buildStrategies p s t, r.speedMph ≤ y.speedMph)))
    ∧ List.Sublist ((buildStrategies p s t).map (fun x => x.tier))
        [TierTag.primary, TierTag.secondary, TierTag.tertiary] := by
  obtain ⟨h1, h2, h3⟩ := findBestSpeedSelection_spec (buildStrategies p s t)
  refine ⟨h1, h2, h3, ?_⟩
  rcases p with - | vp <;> rcases s with - | vs <;> rcases t with - | vt <;>
    simp [buildStrategies]

/-! ## Claim C4 -/

/-- Counterexample to claim C4: for a candidate pair whose approach power
score is 0, the source replaces it by 0.5 (`powerScore || 0.5`), so the
composite confidence differs from the claimed weighted formula, which would
use a powerScore of 0. -/
theorem claim_C4_counterexample :
    calculateSpeedConfidence ⟨500, 1, 0, 1⟩ ⟨450, 1, 1, 1⟩ 50 0 0 ≠
      specSpeedConfidence ⟨500, 1, 0, 1⟩ ⟨450, 1, 1, 1⟩ 50 0 0 := by
  simp only [calculateSpeedConfidence, specSpeedConfidence, orHalf]
  norm_num [min_def, max_def]

/-- Claim C4 (amended): for every candidate pair whose power scores are
non-zero (so the `|| 0.5` falsy default does not fire), the composite
confidence equals the claimed clamped weighted formula; every surviving
match of `combineAnalyses` has confidence at or above the threshold; the
survivors are sorted by confidence descending; and the best match (the head)
has maximal confidence. -/
theorem claim_C4_confidence :
    (∀ (a r : RankedFreq) (speed qa qr : ℚ), a.powerScore ≠ 0 → r.powerScore ≠ 0 →
      calculateSpeedConfidence a r speed qa qr = specSpeedConfidence a r speed qa qr)
    ∧ (∀ (af rf : List RankedFreq) (qa qr thr : ℚ),
      ∀ c ∈ speedCalculationsOf af rf qa qr thr, thr ≤ c.confidence)
    ∧ (∀ (af rf : List RankedFreq) (qa qr thr : ℚ),
      (speedCalculationsOf af rf qa qr thr).Pairwise
        (fun a b => b.confidence ≤ a.confidence))
    ∧ (∀ (af rf : List RankedFreq) (qa qr thr : ℚ) (best : SpeedCalculation),
      (speedCalculationsOf af rf qa qr thr).head? = some best →
      ∀ c ∈ speedCalculationsOf af rf qa qr thr, c.confidence ≤ best.confidence) := by
  refine ⟨?_, ?_, ?_, ?_⟩
  · intro a r speed qa qr hA hR
    simp only [calculateSpeedConfidence, specSpeedConfidence, orHalf,
      if_neg hA, if_neg hR]
    rw [show (1 : ℚ) - ((a.rank - 1) * 0.1 + (r.rank - 1) * 0.1)
        = 1 - 0.1 * (a.rank - 1) - 0.1 * (r.rank - 1) by ring]
    ring_nf
  · intro af rf qa qr thr c hc
    have hc2 : c ∈ combinePairs af rf qa qr thr := by
      have := hc
      simp only [speedCalculationsOf] at this
      exact mem_sortDescBy.mp this
    obtain ⟨a, ha, hc3⟩ := List.mem_flatMap.mp hc2
    obtain ⟨r, hr, heq⟩ := List.mem_filterMap.mp hc3
    split_ifs at heq with h1 h2
    simp only [Option.some.injEq] at heq
    subst heq
    exact h2
  · intro af rf qa qr thr
    simp only [speedCalculationsOf]
    exact sorted_sortDescBy _ _
  · intro af rf qa qr thr best hbest c hc
    have hp : (speedCalculationsOf af rf qa qr thr).Pairwise
        (fun a b => b.confidence ≤ a.confidence) := by
      simp only [speedCalculationsOf]
      exact sorted_sortDescBy _ _
    cases hl : speedCalculationsOf af rf qa qr thr with
    | nil =>
      rw [hl] at hbest
      simp at hbest
    | cons b rest =>
      rw [hl] at hbest hc hp
      simp only [List.head?_cons, Option.some.injEq] at hbest
      subst hbest
      rcases List.mem_cons.mp hc with rfl | hc
      · exact le_refl _
      · exact List.rel_of_pairwise_cons hp hc

/-- Witness for `claim_C4_confidence`: the formula equality at a pair with
non-zero power scores, and the threshold bound on a concrete survivor
list. -/
theorem claim_C4_confidence_witness :
    calculateSpeedConfidence ⟨500, 4, 1, 1⟩ ⟨450, 2, 1/2, 1⟩ 30 (1/2) (1/2)
        = specSpeedConfidence ⟨500, 4, 1, 1⟩ ⟨450, 2, 1/2, 1⟩ 30 (1/2) (1/2)
    ∧ ∀ c ∈ speedCalculationsOf [⟨500, 4, 1, 1⟩] [⟨450, 2, 1/2, 1⟩] (1/2) (1/2) 0.3,
        (0.3 : ℚ) ≤ c.confidence := by
  constructor
  · exact claim_C4_confidence.1 _ _ 30 _ _ (by norm_num) (by norm_num)
  · intro c hc
    exact claim_C4_confidence.2.1 _ _ _ _ _ c hc

/-! ## Claim C5 -/

/-- The tertiary fold is the first-minimum-by-error selection over the
qualifying candidates. -/
theorem tryTertiaryStrategy_eq (af rf : List FreqCandidate) (e : Option ℚ) :
    tryTertiaryStrategy af rf e =
      keepFirstMin (fun c => c.error)
        ((tertiaryPairs af rf).filterMap (tertiaryCandidate e)) := by
  rw [tryTertiaryStrategy, keepFirstMin]
  suffices h : ∀ (l : List (ℚ × ℚ)) (init : Option TertiaryResult),
      l.foldl
        (fun acc p =>
          match tertiaryCandidate e p with
          | none => acc
          | some cand => minStep (fun c => c.error) acc cand) init
        = (l.filterMap (tertiaryCandidate e)).foldl (minStep fun c => c.error) init by
    exact h _ none
  intro l
  induction l with
  | nil => intro init; rfl
  | cons x xs ih =>
    intro init
    cases hx : tertiaryCandidate e x <;> simp [List.filterMap_cons, hx, ih]

theorem tertiaryError_of_anchor {o : Option ℚ} {v : ℚ} (h : anchorValue o = some v)
    (m : ℚ) : tertiaryError o m = mathAbs (m - v) := by
  rw [tertiaryError, h]

theorem tertiaryError_of_none {o : Option ℚ} (h : anchorValue o = none) (m : ℚ) :
    tertiaryError o m = 0 := by
  rw [tertiaryError, h]

/-- Field values of a qualifying tertiary candidate. -/
theorem tertiaryCandidate_some {e : Option ℚ} {p : ℚ × ℚ} {r : TertiaryResult}
    (h : tertiaryCandidate e p = some r) :
    0 < r.speedKmh ∧ r.speedKmh < 1000 ∧ r.speedMph = r.speedKmh * 0.621371 ∧
      r.error = tertiaryError e r.speedMph := by
  unfold tertiaryCandidate at h
  split_ifs at h with hc
  simp only [Option.some.injEq] at h
  subst h
  exact ⟨hc.1, hc.2, rfl, rfl⟩

theorem tertiarySpeedKmh_400_300 : tertiarySpeedKmh (400, 300) = 882 / 5 := by
  show (if (1000 : ℚ) ≤ 343 * ((400 : ℚ) - 300) / (400 + 300) * 3.6 ∨
      343 * ((400 : ℚ) - 300) / (400 + 300) * 3.6 < 0 then (0 : ℚ)
    else 343 * ((400 : ℚ) - 300) / (400 + 300) * 3.6) = 882 / 5
  norm_num

theorem tertiarySpeedKmh_300_400 : tertiarySpeedKmh (300, 400) = 0 := by
  show (if (1000 : ℚ) ≤ 343 * ((300 : ℚ) - 400) / (300 + 400) * 3.6 ∨
      343 * ((300 : ℚ) - 400) / (300 + 400) * 3.6 < 0 then (0 : ℚ)
    else 343 * ((300 : ℚ) - 400) / (300 + 400) * 3.6) = 0
  norm_num

theorem tertiarySpeedKmh_400_390 : tertiarySpeedKmh (400, 390) = 6174 / 395 := by
  show (if (1000 : ℚ) ≤ 343 * ((400 : ℚ) - 390) / (400 + 390) * 3.6 ∨
      343 * ((400 : ℚ) - 390) / (400 + 390) * 3.6 < 0 then (0 : ℚ)
    else 343 * ((400 : ℚ) - 390) / (400 + 390) * 3.6) = 6174 / 395
  norm_num

theorem tertiarySpeedKmh_390_400 : tertiarySpeedKmh (390, 400) = 0 := by
  show (if (1000 : ℚ) ≤ 343 * ((390 : ℚ) - 400) / (390 + 400) * 3.6 ∨
      343 * ((390 : ℚ) - 400) / (390 + 400) * 3.6 < 0 then (0 : ℚ)
    else 343 * ((390 : ℚ) - 400) / (390 + 400) * 3.6) = 0
  norm_num

theorem tertiaryCandidate_400_300 (e : Option ℚ) :
    tertiaryCandidate e (400, 300) =
      some ⟨882 / 5 * 0.621371, 882 / 5, 400, 300,
        tertiaryError e (882 / 5 * 0.621371),
        tertiaryAccuracy e (tertiaryError e (882 / 5 * 0.621371))⟩ := by
  rw [tertiaryCandidate, tertiarySpeedKmh_400_300, if_pos (by norm_num)]

theorem tertiaryCandidate_300_400 (e : Option ℚ) :
    tertiaryCandidate e (300, 400) = none := by
  rw [tertiaryCandidate, tertiarySpeedKmh_300_400, if_neg (by norm_num)]

theorem tertiaryCandidate_400_390 (e : Option ℚ) :
    tertiaryCandidate e (400, 390) =
      some ⟨6174 / 395 * 0.621371, 6174 / 395, 400, 390,
        tertiaryError e (6174 / 395 * 0.621371),
        tertiaryAccuracy e (tertiaryError e (6174 / 395 * 0.621371))⟩ := by
  rw [tertiaryCandidate, tertiarySpeedKmh_400_390, if_pos (by norm_num)]

theorem tertiaryCandidate_390_400 (e : Option ℚ) :
    tertiaryCandidate e (390, 400) = none := by
  rw [tertiaryCandidate, tertiarySpeedKmh_390_400, if_neg (by norm_num)]

/-- The qualifying candidates of the concrete tertiary example, in iteration
order. -/
theorem tertiaryQualifying_concrete (e : Option ℚ) :
    (tertiaryPairs [⟨400⟩] [⟨300⟩, ⟨390⟩]).filterMap (tertiaryCandidate e) =
      [⟨882 / 5 * 0.621371, 882 / 5, 400, 300,
          tertiaryError e (882 / 5 * 0.621371),
          tertiaryAccuracy e (tertiaryError e (882 / 5 * 0.621371))⟩,
        ⟨6174 / 395 * 0.621371, 6174 / 395, 400, 390,
          tertiaryError e (6174 / 395 * 0.621371),
          tertiaryAccuracy e (tertiaryError e (6174 / 395 * 0.621371))⟩] := by
  have hp : tertiaryPairs [⟨400⟩] [⟨300⟩, ⟨390⟩] =
      [(400, 300), (300, 400), (400, 390), (390, 400)] := rfl
  rw [hp]
  simp [List.filterMap_cons, tertiaryCandidate_400_300, tertiaryCandidate_300_400,
    tertiaryCandidate_400_390, tertiaryCandidate_390_400]

/-- Counterexample to claim C5: with no anchor, the code keeps the first
qualifying pair in iteration order rather than the lowest positive speed.
With approach candidate 400 Hz and recede candidates 300 Hz then 390 Hz, the
first qualifying pair (400, 300) gives 176.4 km/h and is returned, although
the later pair (400, 390) qualifies with the lower speed 6174/395 km/h
(about 15.63 km/h). -/
theorem claim_C5_counterexample :
    ((tryTertiaryStrategy [⟨400⟩] [⟨300⟩, ⟨390⟩] none).map fun r => r.speedKmh)
        = some (882 / 5)
    ∧ ((tertiaryCandidate none (400, 390)).map fun r => r.speedKmh) = some (6174 / 395)
    ∧ (6174 : ℚ) / 395 < 882 / 5 := by
  refine ⟨?_, ?_, by norm_num⟩
  · rw [tryTertiaryStrategy_eq, tertiaryQualifying_concrete, keepFirstMin_cons]
    have hstep : foldMinBy (fun c => c.error)
        (⟨882 / 5 * 0.621371, 882 / 5, 400, 300,
          tertiaryError none (882 / 5 * 0.621371),
          tertiaryAccuracy none (tertiaryError none (882 / 5 * 0.621371))⟩ :
            TertiaryResult)
        [⟨6174 / 395 * 0.621371, 6174 / 395, 400, 390,
          tertiaryError none (6174 / 395 * 0.621371),
          tertiaryAccuracy none (tertiaryError none (6174 / 395 * 0.621371))⟩] =
        ⟨882 / 5 * 0.621371, 882 / 5, 400, 300,
          tertiaryError none (882 / 5 * 0.621371),
          tertiaryAccuracy none (tertiaryError none (882 / 5 * 0.621371))⟩ := by
      simp [foldMinBy, tertiaryError, anchorValue]
    rw [hstep]
    rfl
  · rw [tertiaryCandidate_400_390]
    rfl

/-- Claim C5 (amended): `tryTertiaryStrategy` pairs the top ten approach and
top ten recede candidates in both orderings and keeps pairs with speed
strictly between 0 and 1000 km/h; it returns `valid: false` exactly when no
pair qualifies; a returned result is a qualifying pair attaining the minimum
anchored error and is the first such pair in iteration order; with a nonzero
anchor the error is `|speedMph - anchor|`, and with no anchor every error is
0, so the first qualifying pair in iteration order is returned (not
necessarily the lowest positive speed). -/
theorem claim_C5_tertiary :
    (∀ (af rf : List FreqCandidate) (e : Option ℚ),
      tryTertiaryStrategy af rf e = none ↔
        (tertiaryPairs af rf).filterMap (tertiaryCandidate e) = [])
    ∧ (∀ (af rf : List FreqCandidate) (e : Option ℚ) (r : TertiaryResult),
      tryTertiaryStrategy af rf e = some r →
        r ∈ (tertiaryPairs af rf).filterMap (tertiaryCandidate e) ∧
        0 < r.speedKmh ∧ r.speedKmh < 1000 ∧
        (∀ c ∈ (tertiaryPairs af rf).filterMap (tertiaryCandidate e),
          r.error ≤ c.error) ∧
        ∃ l₁ l₂, (tertiaryPairs af rf).filterMap (tertiaryCandidate e) =
            l₁ ++ r :: l₂ ∧ ∀ c ∈ l₁, r.error < c.error)
    ∧ (∀ (e : Option ℚ) (ev : ℚ), anchorValue e = some ev →
      ∀ (p : ℚ × ℚ) (c : TertiaryResult), tertiaryCandidate e p = some c →
        c.error = |c.speedMph - ev|)
    ∧ (∀ (af rf : List FreqCandidate) (e : Option ℚ), anchorValue e = none →
      ∀ (r : TertiaryResult), tryTertiaryStrategy af rf e = some r →
        ((tertiaryPairs af rf).filterMap (tertiaryCandidate e)).head? = some r) := by
  refine ⟨?_, ?_, ?_, ?_⟩
  · intro af rf e
    rw [tryTertiaryStrategy_eq]
    exact keepFirstMin_eq_none_iff _ _
  · intro af rf e r hr
    rw [tryTertiaryStrategy_eq] at hr
    cases hl : (tertiaryPairs af rf).filterMap (tertiaryCandidate e) with
    | nil =>
      rw [hl] at hr
      simp [keepFirstMin] at hr
    | cons x xs =>
      rw [hl, keepFirstMin_cons] at hr
      simp only [Option.some.injEq] at hr
      subst hr
      obtain ⟨l₁, l₂, hsplit, hbefore, hmin⟩ :=
        foldMinBy_spec (fun c => c.error) x xs
      have hmem : foldMinBy (fun c => c.error) x xs ∈ x :: xs := foldMinBy_mem _ _ _
      have hmem2 : foldMinBy (fun c => c.error) x xs ∈
          (tertiaryPairs af rf).filterMap (tertiaryCandidate e) := by
        rw [hl]; exact hmem
      obtain ⟨p, -, hp⟩ := List.mem_filterMap.mp hmem2
      obtain ⟨hb1, hb2, -, -⟩ := tertiaryCandidate_some hp
      exact ⟨hmem, hb1, hb2, hmin, l₁, l₂, hsplit, hbefore⟩
  · intro e ev hev p c hc
    obtain ⟨-, -, -, herr⟩ := tertiaryCandidate_some hc
    rw [herr, tertiaryError_of_anchor hev, mathAbs_eq_abs]
  · intro af rf e he r hr
    have hz : ∀ c ∈ (tertiaryPairs af rf).filterMap (tertiaryCandidate e),
        c.error = 0 := by
      intro c hc
      obtain ⟨p, -, hp⟩ := List.mem_filterMap.mp hc
      obtain ⟨-, -, -, herr⟩ := tertiaryCandidate_some hp
      rw [herr, tertiaryError_of_none he]
    rw [tryTertiaryStrategy_eq] at hr
    cases hl : (tertiaryPairs af rf).filterMap (tertiaryCandidate e) with
    | nil =>
      rw [hl] at hr
      simp [keepFirstMin] at hr
    | cons x xs =>
      rw [hl, keepFirstMin_cons] at hr
      simp only [Option.some.injEq] at hr
      subst hr
      obtain ⟨l₁, l₂, hsplit, hbefore, -⟩ :=
        foldMinBy_spec (fun c => c.error) x xs
      cases l₁ with
      | nil =>
        simp only [List.nil_append] at hsplit
        rw [List.head?_cons]
        exact congrArg some (List.cons_eq_cons.mp hsplit).1
      | cons z l₁t =>
        exfalso
        have hzmem : z ∈ x :: xs := by
          rw [hsplit]
          exact List.mem_append.mpr (Or.inl (List.mem_cons_self _ _))
        have hrmem : foldMinBy (fun c => c.error) x xs ∈ x :: xs := foldMinBy_mem _ _ _
        have h1 : z.error = 0 := hz z (by rw [hl]; exact hzmem)
        have h2 : (foldMinBy (fun c => c.error) x xs).error = 0 :=
          hz _ (by rw [hl]; exact hrmem)
        have h3 := hbefore z (List.mem_cons_self _ _)
        rw [h1, h2] at h3
        exact lt_irrefl 0 h3

/-- Witness for `claim_C5_tertiary`: with anchor 10 mph, the returned pair is
the qualifying pair (400, 390), whose speed 6174/395 km/h minimises the
anchored error, and its bounds follow from the claim theorem. -/
theorem claim_C5_tertiary_witness :
    ∃ r, tryTertiaryStrategy [⟨400⟩] [⟨300⟩, ⟨390⟩] (some 10) = some r ∧
      r ∈ (tertiaryPairs [⟨400⟩] [⟨300⟩, ⟨390⟩]).filterMap
        (tertiaryCandidate (some 10)) ∧
      0 < r.speedKmh ∧ r.speedKmh < 1000 := by
  have hanchor : anchorValue (some 10) = some 10 := by norm_num [anchorValue]
  have he1 : tertiaryError (some 10) (882 / 5 * 0.621371) =
      882 / 5 * 0.621371 - 10 := by
    rw [tertiaryError_of_anchor hanchor]
    norm_num [mathAbs]
  have he2 : tertiaryError (some 10) (6174 / 395 * 0.621371) =
      10 - 6174 / 395 * 0.621371 := by
    rw [tertiaryError_of_anchor hanchor]
    norm_num [mathAbs]
  have hr : tryTertiaryStrategy [⟨400⟩] [⟨300⟩, ⟨390⟩] (some 10) =
      some ⟨6174 / 395 * 0.621371, 6174 / 395, 400, 390,
        tertiaryError (some 10) (6174 / 395 * 0.621371),
        tertiaryAccuracy (some 10)
          (tertiaryError (some 10) (6174 / 395 * 0.621371))⟩ := by
    rw [tryTertiaryStrategy_eq, tertiaryQualifying_concrete, keepFirstMin_cons]
    have hlt : tertiaryError (some 10) (6174 / 395 * 0.621371) <
        tertiaryError (some 10) (882 / 5 * 0.621371) := by
      rw [he1, he2]
      norm_num
    simp [foldMinBy, hlt]
  obtain ⟨hmem, hb1, hb2, -⟩ := claim_C5_tertiary.2.1 _ _ _ _ hr
  exact ⟨_, hr, hmem, hb1, hb2⟩

/-! ## Claim C6 -/

/-- `validateSections` is valid exactly when both sections reach the
threshold, whatever the strategy tag, durations, or length ratio. -/
theorem validateSections_isValid (sections : Sections) (m : ℕ) :
    (validateSections sections m).isValid =
      (decide (m ≤ sections.approaching.length) &&
        decide (m ≤ sections.receding.length)) := by
  unfold validateSections
  by_cases h1 : sections.approaching.length < m <;>
    by_cases h2 : sections.receding.length < m <;>
      simp [h1, h2, Nat.not_lt.mp, Nat.lt_iff_add_one_le] <;> omega

theorem validateSections_warnings (sections : Sections) (m : ℕ) :
    (validateSections sections m).warnings ≠ [] ↔
      (5 < (sections.approaching.length : ℚ) / (sections.receding.length : ℚ) ∨
        (sections.approaching.length : ℚ) / (sections.receding.length : ℚ) < 0.2) := by
  unfold validateSections
  by_cases h : 5 < (sections.approaching.length : ℚ) / (sections.receding.length : ℚ) ∨
      (sections.approaching.length : ℚ) / (sections.receding.length : ℚ) < 0.2 <;>
    simp [h]

theorem extractShortFileSections_approaching (samples : List ℚ) (rate : ℚ) :
    (extractShortFileSections samples rate).approaching.length =
      samples.length / 4 := by
  show (jsSlice samples 0 ((samples.length / 4 : ℕ) : ℤ)).length = samples.length / 4
  rw [length_jsSlice, jsSliceIndex_ofNat _ _ (Nat.div_le_self _ _), jsSliceIndex_zero]
  omega

theorem extractShortFileSections_receding (samples : List ℚ) (rate : ℚ)
    (h : 0 < samples.length / 4) :
    (extractShortFileSections samples rate).receding.length =
      samples.length / 4 := by
  show (jsSliceFrom samples (-((samples.length / 4 : ℕ) : ℤ))).length = samples.length / 4
  rw [length_jsSliceFrom, jsSliceIndex_neg _ _ h (Nat.div_le_self _ _)]
  have := Nat.div_le_self samples.length 4
  omega

theorem fallbackQuarterSections_approaching (samples : List ℚ) (rate : ℚ) :
    (fallbackQuarterSections samples rate).approaching.length =
      samples.length / 4 := by
  show (jsSlice samples 0 ((samples.length / 4 : ℕ) : ℤ)).length = samples.length / 4
  rw [length_jsSlice, jsSliceIndex_ofNat _ _ (Nat.div_le_self _ _), jsSliceIndex_zero]
  omega

theorem fallbackQuarterSections_receding (samples : List ℚ) (rate : ℚ)
    (h : 0 < samples.length / 4) :
    (fallbackQuarterSections samples rate).receding.length =
      samples.length / 4 := by
  show (jsSliceFrom samples (-((samples.length / 4 : ℕ) : ℤ))).length = samples.length / 4
  rw [length_jsSliceFrom, jsSliceIndex_neg _ _ h (Nat.div_le_self _ _)]
  have := Nat.div_le_self samples.length 4
  omega

/-- With no approach index, a short duration, a short-file strategy failing
its 1024-sample validation, and a fallback passing its 512-sample
validation, `extractBestSections` returns the simple-quarters fallback with
its own (passing) validation. -/
theorem extractBestSections_fallback (samples : List ℚ) (rate : ℚ)
    (hdur : (samples.length : ℚ) / rate < 5)
    (h2 : (validateSections (extractShortFileSections samples rate) 1024).isValid
      = false)
    (h3 : (validateSections (fallbackQuarterSections samples rate) 512).isValid
      = true) :
    (extractBestSections samples rate none).validation =
        validateSections (fallbackQuarterSections samples rate) 512
    ∧ (extractBestSections samples rate none).approaching =
        (fallbackQuarterSections samples rate).approaching
    ∧ (extractBestSections samples rate none).receding =
        (fallbackQuarterSections samples rate).receding
    ∧ (extractBestSections samples rate none).selectedStrategy = "simple_quarters"
    ∧ (extractBestSections samples rate none).confidence = 0.5 := by
  have e1 : closestApproachEvals samples rate none = [] := rfl
  have e2 : shortFileEvals samples rate =
      [⟨"short_file_quarters", extractShortFileSections samples rate,
        validateSections (extractShortFileSections samples rate) 1024, 0.2⟩] := by
    rw [shortFileEvals, if_pos hdur, h2]
    norm_num
  have e3 : simpleQuartersEval samples rate =
      ⟨"simple_quarters", fallbackQuarterSections samples rate,
        validateSections (fallbackQuarterSections samples rate) 512, 0.5⟩ := by
    rw [simpleQuartersEval, h3]
    norm_num
  have hall : allStrategyEvals samples rate none =
      [⟨"short_file_quarters", extractShortFileSections samples rate,
        validateSections (extractShortFileSections samples rate) 1024, 0.2⟩,
       ⟨"simple_quarters", fallbackQuarterSections samples rate,
        validateSections (fallbackQuarterSections samples rate) 512, 0.5⟩] := by
    rw [allStrategyEvals, e1, e2, e3]
    rfl
  have hfilter : (allStrategyEvals samples rate none).filter
      (fun s => s.validation.isValid) =
      [⟨"simple_quarters", fallbackQuarterSections samples rate,
        validateSections (fallbackQuarterSections samples rate) 512, 0.5⟩] := by
    rw [hall]
    simp only [List.filter_cons, List.filter_nil, h2, h3, Bool.false_eq_true,
      if_false, if_true]
  have hbest : bestStrategyEval samples rate none =
      ⟨"simple_quarters", fallbackQuarterSections samples rate,
        validateSections (fallbackQuarterSections samples rate) 512, 0.5⟩ := by
    rw [bestStrategyEval, hfilter, if_pos (by simp)]
    rfl
  refine ⟨?_, ?_, ?_, ?_, ?_⟩
  · show (bestStrategyEval samples rate none).validation = _
    rw [hbest]
  · show (bestStrategyEval samples rate none).sections.approaching = _
    rw [hbest]
  · show (bestStrategyEval samples rate none).sections.receding = _
    rw [hbest]
  · show (bestStrategyEval samples rate none).name = _
    rw [hbest]
  · show (bestStrategyEval samples rate none).confidence = _
    rw [hbest]

/-- Counterexample to claim C6: on a 2048-sample buffer at 1000 Hz with no
approach index, `extractBestSections` validates the simple-quarters fallback
against 512 samples, so the returned validation has `isValid = true`
although both sections have only 512 samples, far below
`minSectionSamples = 2048`. -/
theorem claim_C6_counterexample :
    (extractBestSections (List.replicate 2048 0) 1000 none).validation.isValid = true
    ∧ (extractBestSections (List.replicate 2048 0) 1000 none).approaching.length = 512
    ∧ (512 : ℕ) < 2048 := by
  have hlen : (List.replicate 2048 (0 : ℚ)).length = 2048 :=
    List.length_replicate 2048 0
  have hq : (List.replicate 2048 (0 : ℚ)).length / 4 = 512 := by rw [hlen]
  have hA2 : (extractShortFileSections (List.replicate 2048 0) 1000).approaching.length
      = 512 := by rw [extractShortFileSections_approaching, hq]
  have hA3 : (fallbackQuarterSections (List.replicate 2048 0) 1000).approaching.length
      = 512 := by rw [fallbackQuarterSections_approaching, hq]
  have hR3 : (fallbackQuarterSections (List.replicate 2048 0) 1000).receding.length
      = 512 := by
    rw [fallbackQuarterSections_receding _ _ (by omega), hq]
  have h2 : (validateSections (extractShortFileSections (List.replicate 2048 0) 1000)
      1024).isValid = false := by
    rw [validateSections_isValid, hA2]
    rw [show (decide (1024 ≤ 512) : Bool) = false from rfl, Bool.false_and]
  have h3 : (validateSections (fallbackQuarterSections (List.replicate 2048 0) 1000)
      512).isValid = true := by
    rw [validateSections_isValid, hA3, hR3]
    rfl
  have hdur : ((List.replicate 2048 (0 : ℚ)).length : ℚ) / 1000 < 5 := by
    rw [hlen]
    norm_num
  have hres := extractBestSections_fallback (List.replicate 2048 (0 : ℚ)) 1000 hdur h2 h3
  refine ⟨?_, ?_, by omega⟩
  · rw [hres.1]
    exact h3
  · rw [hres.2.1]
    exact hA3

/-- Claim C6 (amended): `validateSections` reports `isValid = false` exactly
when a section falls below the threshold it is called with (default 2048),
independently of the strategy tag; a length-ratio imbalance beyond 5:1 or
below 1:5 produces only a warning and never affects `isValid`. However,
`extractBestSections` validates its fallback strategies against the lower
thresholds 1024 and 512, so its returned validation can be valid with
sections shorter than 2048 samples. -/
theorem claim_C6_validation :
    (∀ (sections : Sections) (m : ℕ),
      (validateSections sections m).isValid = true ↔
        m ≤ sections.approaching.length ∧ m ≤ sections.receding.length)
    ∧ (∀ sections : Sections,
      (sections.approaching.length < 2048 ∨ sections.receding.length < 2048) →
        (validateSections sections).isValid = false)
    ∧ (∀ sections : Sections, (validateSections sections).warnings ≠ [] ↔
      (5 < (sections.approaching.length : ℚ) / (sections.receding.length : ℚ) ∨
        (sections.approaching.length : ℚ) / (sections.receding.length : ℚ) < 0.2))
    ∧ (∀ (s1 s2 : Sections) (m : ℕ), s1.approaching = s2.approaching →
        s1.receding = s2.receding →
        (validateSections s1 m).isValid = (validateSections s2 m).isValid) := by
  refine ⟨?_, ?_, ?_, ?_⟩
  · intro sections m
    rw [validateSections_isValid]
    simp
  · intro sections h
    rw [validateSections_isValid]
    rcases h with h | h <;> simp <;> omega
  · intro sections
    exact validateSections_warnings sections 2048
  · intro s1 s2 m ha hr
    rw [validateSections_isValid, validateSections_isValid, ha, hr]

/-- Witness for `claim_C6_validation`: a 100-sample section set fails the
default validation; a 4096-sample set passes it even with a warning-level
imbalance absent; strategy tags do not matter. -/
theorem claim_C6_validation_witness :
    (validateSections ⟨List.replicate 100 0, List.replicate 4096 0, 1, 1, "x"⟩).isValid
        = false
    ∧ (validateSections ⟨List.replicate 4096 0, List.replicate 4096 0, 1, 1, "y"⟩).isValid
        = true := by
  constructor
  · refine claim_C6_validation.2.1 _ (Or.inl ?_)
    show (List.replicate 100 (0 : ℚ)).length < 2048
    rw [List.length_replicate]
    omega
  · refine (claim_C6_validation.1 _ 2048).mpr ⟨?_, ?_⟩ <;>
      · show (2048 : ℕ) ≤ (List.replicate 4096 (0 : ℚ)).length
        rw [List.length_replicate]
        omega

/-! ## Claim C7 -/

/-- `find?` returns the first element satisfying the predicate. -/
theorem find_first_of_split {α : Type} (pred : α → Bool) :
    ∀ (l₁ : List α) (p : α) (l₂ : List α), (∀ q ∈ l₁, pred q = false) →
      pred p = true → List.find? pred (l₁ ++ p :: l₂) = some p := by
  intro l₁
  induction l₁ with
  | nil =>
    intro p l₂ _ hp
    rw [List.nil_append]
    exact List.find?_cons_of_pos _ hp
  | cons a as ih =>
    intro p l₂ h hp
    rw [List.cons_append,
      List.find?_cons_of_neg _ (by simp [h a (List.mem_cons_self _ _)])]
    exact ih p l₂ (fun q hq => h q (List.mem_cons_of_mem _ hq)) hp

/-- Claim C7: each detected peak's confidence is
`min(1, prominence / (maxEnergy * 0.5))`; detected peaks are sorted by
prominence descending; with no peaks the selection reports not-found with
the profile-midpoint index; the selected peak is the first whose confidence
reaches the threshold; and when none reaches it, the most prominent peak is
returned with the low-confidence warning. -/
theorem claim_C7_approach_selection :
    (∀ (profile : List EnergyEntry) (prom : ℚ) (p : EnergyPeak),
      p ∈ findEnergyPeaks profile prom →
      p.confidence = min 1 (p.prominence / (maxEnergy profile * 0.5)))
    ∧ (∀ (profile : List EnergyEntry) (prom : ℚ),
      (findEnergyPeaks profile prom).Pairwise (fun a b => b.prominence ≤ a.prominence))
    ∧ (∀ (profile : List EnergyEntry) (mc : ℚ),
      selectClosestApproachPeak [] profile mc =
        ⟨false, 0, profile.length / 2, false, "No energy peaks detected"⟩)
    ∧ (∀ (l₁ : List EnergyPeak) (p : EnergyPeak) (l₂ : List EnergyPeak)
        (profile : List EnergyEntry) (mc : ℚ),
      (∀ q ∈ l₁, q.confidence < mc) → mc ≤ p.confidence →
      selectClosestApproachPeak (l₁ ++ p :: l₂) profile mc =
        ⟨true, p.confidence, p.index, false, "High confidence peak detected"⟩)
    ∧ (∀ (p : EnergyPeak) (l : List EnergyPeak) (profile : List EnergyEntry)
        (mc : ℚ),
      (∀ q ∈ p :: l, q.confidence < mc) →
      selectClosestApproachPeak (p :: l) profile mc =
        ⟨true, p.confidence, p.index, true, "Low confidence peak selected"⟩) := by
  refine ⟨?_, ?_, ?_, ?_, ?_⟩
  · intro profile prom p hp
    rw [findEnergyPeaks] at hp
    split_ifs at hp
    · simp at hp
    · have hp2 := mem_sortDescBy.mp hp
      obtain ⟨i, -, heq⟩ := List.mem_filterMap.mp hp2
      split_ifs at heq
      simp only [Option.some.injEq] at heq
      subst heq
      rfl
  · intro profile prom
    rw [findEnergyPeaks]
    split_ifs
    · exact List.Pairwise.nil
    · exact sorted_sortDescBy _ _
  · intro profile mc
    rfl
  · intro l₁ p l₂ profile mc hlt hp
    have hfind : List.find? (fun q => decide (mc ≤ q.confidence)) (l₁ ++ p :: l₂)
        = some p := by
      refine find_first_of_split _ l₁ p l₂ ?_ (by simp [hp])
      intro q hq
      simp [not_le.mpr (hlt q hq)]
    cases l₁ with
    | nil =>
      rw [List.nil_append] at hfind ⊢
      simp only [selectClosestApproachPeak]
      rw [hfind]
    | cons a as =>
      rw [List.cons_append] at hfind ⊢
      simp only [selectClosestApproachPeak]
      rw [hfind]
  · intro p l profile mc h
    have hfind : List.find? (fun q => decide (mc ≤ q.confidence)) (p :: l) = none := by
      refine List.find?_eq_none.mpr ?_
      intro x hx
      simp [not_le.mpr (h x hx)]
    simp only [selectClosestApproachPeak]
    rw [hfind]

/-- Witness for `claim_C7_approach_selection`: a two-peak list where the
second peak is the first to reach the 0.3 threshold; a one-peak list below
the threshold; the empty list. -/
theorem claim_C7_approach_selection_witness :
    selectClosestApproachPeak
        [⟨5, 1, 1, 1, 0, 1/4⟩, ⟨9, 1, 9/10, 9/10, 0, 1/2⟩] [] (3/10) =
      ⟨true, 1/2, 9, false, "High confidence peak detected"⟩
    ∧ selectClosestApproachPeak [⟨5, 1, 1, 1, 0, 1/4⟩] [] (3/10) =
      ⟨true, 1/4, 5, true, "Low confidence peak selected"⟩
    ∧ selectClosestApproachPeak [] [] (3/10) =
      ⟨false, 0, 0, false, "No energy peaks detected"⟩ := by
  refine ⟨?_, ?_, ?_⟩
  · refine claim_C7_approach_selection.2.2.2.1 [⟨5, 1, 1, 1, 0, 1/4⟩]
      ⟨9, 1, 9/10, 9/10, 0, 1/2⟩ [] [] (3/10) ?_ (by norm_num)
    intro q hq
    rw [List.mem_singleton] at hq
    subst hq
    norm_num
  · refine claim_C7_approach_selection.2.2.2.2 ⟨5, 1, 1, 1, 0, 1/4⟩ [] [] (3/10) ?_
    intro q hq
    rw [List.mem_singleton] at hq
    subst hq
    norm_num
  · exact claim_C7_approach_selection.2.2.1 [] (3/10)

/-! ## Claim C8 -/

theorem freq_mem_of_mem_spectrumCandidates {fs ps : List ℚ} {c : FreqPower}
    (h : c ∈ spectrumCandidates fs ps) : c.frequency ∈ fs := by
  induction fs generalizing ps with
  | nil => simp [spectrumCandidates] at h
  | cons f ft ih =>
    cases ps with
    | nil => simp [spectrumCandidates] at h
    | cons p pt =>
      rw [spectrumCandidates, List.zipWith_cons_cons] at h
      rcases List.mem_cons.mp h with rfl | h
      · exact List.mem_cons_self _ _
      · exact List.mem_cons_of_mem _ (ih h)

/-- The candidates array is frequency-ascending whenever the frequency array
is. -/
theorem pairwise_spectrumCandidates {fs ps : List ℚ}
    (h : fs.Pairwise (· < ·)) :
    (spectrumCandidates fs ps).Pairwise (fun a b => a.frequency < b.frequency) := by
  induction fs generalizing ps with
  | nil => simp [spectrumCandidates]
  | cons f ft ih =>
    cases ps with
    | nil => simp [spectrumCandidates]
    | cons p pt =>
      rw [spectrumCandidates, List.zipWith_cons_cons]
      refine List.Pairwise.cons ?_ (ih h.of_cons)
      intro c hc
      exact List.rel_of_pairwise_cons h (freq_mem_of_mem_spectrumCandidates hc)

/-- Claim C8: before `calculatePowerSpectrum` both accessors return an error;
bin frequencies are strictly ascending; the returned candidates are the
first `count` of the power-descending stable sort, hence sorted by power
descending with exact power ties broken by lower frequency first, and every
returned candidate has at least the power of every candidate left out. -/
theorem claim_C8_strongest_frequencies :
    (∀ st : SpectrumAnalyzerState, st.computed = none →
      getStrongestFrequencies st 5 =
        Except.error "Must call calculatePowerSpectrum() first" ∧
      findPeakFrequency st =
        Except.error "Must call calculatePowerSpectrum() first")
    ∧ (∀ (rate : ℚ) (N half : ℕ), 0 < rate → 0 < N →
      (binFrequencies rate N half).Pairwise (· < ·))
    ∧ (∀ (st : SpectrumAnalyzerState) (d : SpectrumData) (count : ℕ),
      st.computed = some d →
      getStrongestFrequencies st count =
        Except.ok ((sortDescBy (fun c => c.power)
          (spectrumCandidates d.frequencies d.powerSpectrum)).take count))
    ∧ (∀ (st : SpectrumAnalyzerState) (d : SpectrumData) (count : ℕ)
        (res : List FreqPower), st.computed = some d →
      d.frequencies.Pairwise (· < ·) →
      getStrongestFrequencies st count = Except.ok res →
      res.Pairwise (fun a b => b.power < a.power ∨
        (a.power = b.power ∧ a.frequency < b.frequency)))
    ∧ (∀ (st : SpectrumAnalyzerState) (d : SpectrumData) (count : ℕ)
        (res : List FreqPower), st.computed = some d →
      getStrongestFrequencies st count = Except.ok res →
      ∀ a ∈ res, ∀ b ∈ (sortDescBy (fun c => c.power)
        (spectrumCandidates d.frequencies d.powerSpectrum)).drop count,
        b.power ≤ a.power) := by
  refine ⟨?_, ?_, ?_, ?_, ?_⟩
  · intro st h
    constructor
    · rw [getStrongestFrequencies, h]
    · rw [findPeakFrequency, h]
  · intro rate N half hr hN
    unfold binFrequencies
    refine List.Pairwise.map (fun i : ℕ => (i : ℚ) * rate / (N : ℚ)) ?_
      (List.sorted_lt_range half)
    intro a b hab
    have hab2 : (a : ℚ) < b := by exact_mod_cast hab
    have hN2 : (0 : ℚ) < (N : ℚ) := by exact_mod_cast hN
    exact (div_lt_div_right hN2).mpr (mul_lt_mul_of_pos_right hab2 hr)
  · intro st d count h
    rw [getStrongestFrequencies, h]
  · intro st d count res h hfs hres
    rw [getStrongestFrequencies, h] at hres
    simp only [Except.ok.injEq] at hres
    subst hres
    refine List.Pairwise.sublist (List.take_sublist _ _) ?_
    exact pairwise_sortDescBy (pairwise_spectrumCandidates hfs)
  · intro st d count res h hres a ha b hb
    rw [getStrongestFrequencies, h] at hres
    simp only [Except.ok.injEq] at hres
    subst hres
    have hp := sorted_sortDescBy (fun c => c.power)
      (spectrumCandidates d.frequencies d.powerSpectrum)
    rw [← List.take_append_drop count (sortDescBy (fun c => c.power)
      (spectrumCandidates d.frequencies d.powerSpectrum))] at hp
    exact (List.pairwise_append.mp hp).2.2 a ha b hb

/-- Witness for `claim_C8_strongest_frequencies`: the error on an
uncomputed state, and the top-3 of a computed state with a power tie, the
lower frequency first. -/
theorem claim_C8_strongest_frequencies_witness :
    getStrongestFrequencies ⟨[], 8, "hamming", none⟩ 5 =
      Except.error "Must call calculatePowerSpectrum() first"
    ∧ getStrongestFrequencies ⟨[], 8, "hamming", some ⟨[1, 5, 5, 2], [0, 1, 2, 3]⟩⟩ 3 =
      Except.ok [⟨1, 5⟩, ⟨2, 5⟩, ⟨3, 2⟩] := by
  constructor
  · exact (claim_C8_strongest_frequencies.1 ⟨[], 8, "hamming", none⟩ rfl).1
  · rw [claim_C8_strongest_frequencies.2.2.1 ⟨[], 8, "hamming",
      some ⟨[1, 5, 5, 2], [0, 1, 2, 3]⟩⟩ ⟨[1, 5, 5, 2], [0, 1, 2, 3]⟩ 3 rfl]
    norm_num [sortDescBy, spectrumCandidates, List.insertionSort, List.orderedInsert]

/-! ## Claim C9 -/

/-- On a non-short file with the default strategy, the guard
`if (AudioSlicer.validateSections(sections))` tests the (always truthy)
validation object, so the closest-approach sections are returned tagged
`peak_rms_energy` unconditionally. -/
theorem analyzerExtractSections_nonshort (samples : List ℚ) (rate : ℚ)
    (h : isShortFile ((samples.length : ℚ) / rate) = false) :
    analyzerExtractSections samples rate "peak_rms_energy" =
      ⟨(extractSections samples rate ((detectClosestApproach samples : ℕ) : ℤ)
          ((samples.length : ℚ) / rate)).approaching,
        (extractSections samples rate ((detectClosestApproach samples : ℕ) : ℤ)
          ((samples.length : ℚ) / rate)).receding,
        (extractSections samples rate ((detectClosestApproach samples : ℕ) : ℤ)
          ((samples.length : ℚ) / rate)).approachDuration,
        (extractSections samples rate ((detectClosestApproach samples : ℕ) : ℤ)
          ((samples.length : ℚ) / rate)).recedeDuration,
        some (extractSections samples rate ((detectClosestApproach samples : ℕ) : ℤ)
          ((samples.length : ℚ) / rate)).strategy,
        "peak_rms_energy"⟩ := by
  simp only [analyzerExtractSections]
  rw [if_pos trivial, h]
  simp [jsObjectTruthy]

theorem detectClosestApproach_replicate100 :
    detectClosestApproach (List.replicate 100 (0 : ℚ)) = 0 := by
  unfold detectClosestApproach
  rw [List.length_replicate, if_pos (by norm_num)]
  rfl

theorem extractSections_replicate100_lengths :
    (extractSections (List.replicate 100 (0 : ℚ)) 4
        ((detectClosestApproach (List.replicate 100 (0 : ℚ)) : ℕ) : ℤ)
        (((List.replicate 100 (0 : ℚ)).length : ℚ) / 4)).approaching.length = 100
    ∧ (extractSections (List.replicate 100 (0 : ℚ)) 4
        ((detectClosestApproach (List.replicate 100 (0 : ℚ)) : ℕ) : ℤ)
        (((List.replicate 100 (0 : ℚ)).length : ℚ) / 4)).receding.length = 100 := by
  rw [detectClosestApproach_replicate100]
  simp only [extractSections, List.length_replicate]
  have hm : min (0.3 : ℚ) (((100 : ℕ) : ℚ) / 4 * 0.2) = 0.3 := by
    push_cast
    norm_num [min_def]
  rw [hm]
  have hf : ⌊(0.3 : ℚ) * 4⌋ = 1 := by norm_num
  rw [hf]
  have hae : max (((0 : ℕ) : ℤ) - 1) 2048 = 2048 := by decide
  have hrs : min (((0 : ℕ) : ℤ) + 1) (((100 : ℕ) : ℤ) - 2048) = -1948 := by decide
  rw [hae, hrs]
  constructor
  · rw [length_jsSlice, List.length_replicate,
      show jsSliceIndex 100 2048 = 100 from by unfold jsSliceIndex; decide,
      jsSliceIndex_zero]
  · rw [length_jsSliceFrom, List.length_replicate,
      show jsSliceIndex 100 (-1948) = 0 from by unfold jsSliceIndex; decide]

/-- Claim C9: on a non-short file with the default `peak_rms_energy`
strategy, the quarters fallback of `AudioAnalyzer.extractSections` is
unreachable — the guard tests the validation object, which is always truthy
— so the closest-approach sections come back tagged `peak_rms_energy` for
every input, including inputs whose validation has `isValid = false`. -/
theorem claim_C9_truthy_guard :
    (∀ (samples : List ℚ) (rate : ℚ),
      isShortFile ((samples.length : ℚ) / rate) = false →
      analyzerExtractSections samples rate "peak_rms_energy" =
        ⟨(extractSections samples rate ((detectClosestApproach samples : ℕ) : ℤ)
            ((samples.length : ℚ) / rate)).approaching,
          (extractSections samples rate ((detectClosestApproach samples : ℕ) : ℤ)
            ((samples.length : ℚ) / rate)).receding,
          (extractSections samples rate ((detectClosestApproach samples : ℕ) : ℤ)
            ((samples.length : ℚ) / rate)).approachDuration,
          (extractSections samples rate ((detectClosestApproach samples : ℕ) : ℤ)
            ((samples.length : ℚ) / rate)).recedeDuration,
          some (extractSections samples rate
            ((detectClosestApproach samples : ℕ) : ℤ)
            ((samples.length : ℚ) / rate)).strategy,
          "peak_rms_energy"⟩)
    ∧ (∃ (samples : List ℚ) (rate : ℚ),
      isShortFile ((samples.length : ℚ) / rate) = false ∧
      (validateSections (extractSections samples rate
          ((detectClosestApproach samples : ℕ) : ℤ)
          ((samples.length : ℚ) / rate))).isValid = false ∧
      (analyzerExtractSections samples rate "peak_rms_energy").sectioningMethod
        = "peak_rms_energy") := by
  have hshort : isShortFile (((List.replicate 100 (0 : ℚ)).length : ℚ) / 4) = false := by
    rw [List.length_replicate]
    simp only [isShortFile, decide_eq_false_iff_not]
    norm_num
  refine ⟨analyzerExtractSections_nonshort, List.replicate 100 0, 4, hshort, ?_, ?_⟩
  · rw [validateSections_isValid, extractSections_replicate100_lengths.1]
    rw [show (decide (2048 ≤ 100) : Bool) = false from rfl, Bool.false_and]
  · rw [analyzerExtractSections_nonshort _ _ hshort]

/-- Witness for `claim_C9_truthy_guard` at a 100-sample buffer (25 s at 4 Hz,
so not a short file): the returned sections carry the `peak_rms_energy`
tag. -/
theorem claim_C9_truthy_guard_witness :
    (analyzerExtractSections (List.replicate 100 0) 4
      "peak_rms_energy").sectioningMethod = "peak_rms_energy" := by
  rw [claim_C9_truthy_guard.1 (List.replicate 100 0) 4
    (by
      rw [List.length_replicate]
      simp only [isShortFile, decide_eq_false_iff_not]
      norm_num)]

/-! ## Claim C10 -/

theorem Heap.length_alloc (h : Heap) (v : List ℚ) :
    (h.alloc v).1.arrs.length = h.arrs.length + 1 := by
  simp [Heap.alloc]

theorem Heap.length_write (h : Heap) (r : ℕ) (v : List ℚ) :
    (h.write r v).arrs.length = h.arrs.length := by
  simp [Heap.write]

theorem Heap.get_alloc_lt (h : Heap) (v : List ℚ) (r : ℕ)
    (hr : r < h.arrs.length) : (h.alloc v).1.get r = h.get r := by
  show (h.arrs ++ [v]).getD r [] = h.arrs.getD r []
  rw [List.getD_eq_getD_get?, List.getD_eq_getD_get?, List.get?_append hr]

theorem Heap.get_alloc_fresh (h : Heap) (v : List ℚ) :
    (h.alloc v).1.get (h.alloc v).2 = v := by
  show (h.arrs ++ [v]).getD h.arrs.length [] = v
  rw [List.getD_eq_getD_get?, List.get?_append_right (le_refl _)]
  simp

theorem Heap.get_write_ne (h : Heap) (r : ℕ) (v : List ℚ) (r2 : ℕ)
    (hne : r2 ≠ r) : (h.write r v).get r2 = h.get r2 := by
  show (h.arrs.set r v).getD r2 [] = h.arrs.getD r2 []
  rw [List.getD_eq_getD_get?, List.getD_eq_getD_get?, List.get?_set_ne _ _ (by omega)]

/-- The constructor's spread copy: the analyzer's buffer holds the caller's
elements, and every pre-existing array is untouched. -/
theorem spectrumAnalyzerNew_copies (h : Heap) (cr : ℕ) (rate : ℚ) (wt : String) :
    (spectrumAnalyzerNew h cr rate wt).1.get
      (spectrumAnalyzerNew h cr rate wt).2.samplesRef = h.get cr :=
  Heap.get_alloc_fresh h (h.get cr)

theorem spectrumAnalyzerNew_preserves (h : Heap) (cr : ℕ) (rate : ℚ)
    (wt : String) : ∀ r < h.arrs.length,
      (spectrumAnalyzerNew h cr rate wt).1.get r = h.get r :=
  fun r hr => Heap.get_alloc_lt h (h.get cr) r hr

theorem spectrumAnalyzerNew_length (h : Heap) (cr : ℕ) (rate : ℚ) (wt : String) :
    (spectrumAnalyzerNew h cr rate wt).1.arrs.length = h.arrs.length + 1 :=
  Heap.length_alloc h _

/-- Two allocations followed by writes to exactly those two fresh arrays
leave every pre-existing array untouched. -/
theorem Heap.get_alloc_alloc_write_write (h : Heap) (v1 v2 w1 w2 : List ℚ)
    (r : ℕ) (hr : r < h.arrs.length) :
    ((((h.alloc v1).1.alloc v2).1.write (h.alloc v1).2 w1).write
      ((h.alloc v1).1.alloc v2).2 w2).get r = h.get r := by
  have e1 : (h.alloc v1).2 = h.arrs.length := rfl
  have e2 : ((h.alloc v1).1.alloc v2).2 = h.arrs.length + 1 := by
    show (h.alloc v1).1.arrs.length = h.arrs.length + 1
    exact Heap.length_alloc h v1
  rw [Heap.get_write_ne _ _ _ _ (by rw [e2]; omega),
    Heap.get_write_ne _ _ _ _ (by rw [e1]; omega),
    Heap.get_alloc_lt _ _ _ (by rw [Heap.length_alloc]; omega),
    Heap.get_alloc_lt _ _ _ hr]

theorem calculatePowerSpectrumHeap_preserves (h : Heap) (st : SAHeapState)
    (wf ff : List ℚ → List ℚ) (bv : ℚ → ℚ → ℚ) :
    ∀ r < h.arrs.length,
      (calculatePowerSpectrumHeap h st wf ff bv).1.get r = h.get r := by
  intro r hr
  simp only [calculatePowerSpectrumHeap]
  exact Heap.get_alloc_alloc_write_write h _ _ _ _ r hr

theorem calculatePowerSpectrumHeap_length (h : Heap) (st : SAHeapState)
    (wf ff : List ℚ → List ℚ) (bv : ℚ → ℚ → ℚ) :
    (calculatePowerSpectrumHeap h st wf ff bv).1.arrs.length =
      h.arrs.length + 2 := by
  simp only [calculatePowerSpectrumHeap, Heap.length_write]
  rw [Heap.length_alloc, Heap.length_alloc]

theorem sliceAlloc_preserves (h : Heap) (src : ℕ) (s e : ℤ) :
    ∀ r < h.arrs.length, (sliceAlloc h src s e).1.get r = h.get r :=
  fun r hr => Heap.get_alloc_lt h _ r hr

theorem sliceAlloc_length (h : Heap) (src : ℕ) (s e : ℤ) :
    (sliceAlloc h src s e).1.arrs.length = h.arrs.length + 1 :=
  Heap.length_alloc h _

theorem frequencyAnalysisNew_copies (h : Heap) (cr : ℕ) :
    (frequencyAnalysisNew h cr).1.get (frequencyAnalysisNew h cr).2 = h.get cr :=
  Heap.get_alloc_fresh h (h.get cr)

theorem frequencyAnalysisNew_preserves (h : Heap) (cr : ℕ) :
    ∀ r < h.arrs.length, (frequencyAnalysisNew h cr).1.get r = h.get r :=
  fun r hr => Heap.get_alloc_lt h _ r hr

/-- Claim C10: the constructors of `SpectrumAnalyzer` and `FrequencyAnalysis`
copy the caller's samples array; power-spectrum computation writes only its
two freshly allocated arrays; sectioning allocates a fresh slice; and after
the composite sequence (construct, compute the power spectrum, slice,
construct the frequency analysis) the caller's array holds exactly the same
elements as before — for any window, transform, and bin-value kernels. -/
theorem claim_C10_no_mutation :
    (∀ (h : Heap) (callerRef : ℕ) (rate : ℚ) (wt : String),
      (spectrumAnalyzerNew h callerRef rate wt).1.get
          (spectrumAnalyzerNew h callerRef rate wt).2.samplesRef = h.get callerRef
      ∧ ∀ r < h.arrs.length,
        (spectrumAnalyzerNew h callerRef rate wt).1.get r = h.get r)
    ∧ (∀ (h : Heap) (st : SAHeapState) (wf ff : List ℚ → List ℚ)
        (bv : ℚ → ℚ → ℚ), ∀ r < h.arrs.length,
      (calculatePowerSpectrumHeap h st wf ff bv).1.get r = h.get r)
    ∧ (∀ (h : Heap) (src : ℕ) (s e : ℤ), ∀ r < h.arrs.length,
      (sliceAlloc h src s e).1.get r = h.get r)
    ∧ (∀ (h : Heap) (callerRef : ℕ),
      (frequencyAnalysisNew h callerRef).1.get (frequencyAnalysisNew h callerRef).2
          = h.get callerRef
      ∧ ∀ r < h.arrs.length, (frequencyAnalysisNew h callerRef).1.get r = h.get r)
    ∧ (∀ (h : Heap) (callerRef : ℕ) (rate : ℚ) (wt : String)
        (wf ff : List ℚ → List ℚ) (bv : ℚ → ℚ → ℚ) (s e : ℤ),
      callerRef < h.arrs.length →
      (frequencyAnalysisNew
        (sliceAlloc
          (calculatePowerSpectrumHeap (spectrumAnalyzerNew h callerRef rate wt).1
            (spectrumAnalyzerNew h callerRef rate wt).2 wf ff bv).1
          callerRef s e).1 callerRef).1.get callerRef = h.get callerRef) := by
  refine ⟨?_, calculatePowerSpectrumHeap_preserves, sliceAlloc_preserves, ?_, ?_⟩
  · intro h callerRef rate wt
    exact ⟨spectrumAnalyzerNew_copies h callerRef rate wt,
      spectrumAnalyzerNew_preserves h callerRef rate wt⟩
  · intro h callerRef
    exact ⟨frequencyAnalysisNew_copies h callerRef,
      frequencyAnalysisNew_preserves h callerRef⟩
  · intro h callerRef rate wt wf ff bv s e hcr
    have l1 := spectrumAnalyzerNew_length h callerRef rate wt
    have l2 := calculatePowerSpectrumHeap_length
      (spectrumAnalyzerNew h callerRef rate wt).1
      (spectrumAnalyzerNew h callerRef rate wt).2 wf ff bv
    rw [frequencyAnalysisNew_preserves _ _ _ (by rw [sliceAlloc_length, l2, l1]; omega),
      sliceAlloc_preserves _ _ _ _ _ (by rw [l2, l1]; omega),
      calculatePowerSpectrumHeap_preserves _ _ _ _ _ _ (by rw [l1]; omega),
      spectrumAnalyzerNew_preserves _ _ _ _ _ hcr]

/-- Witness for `claim_C10_no_mutation` on a one-array heap holding
`[1, 2, 3]`: the composite pipeline leaves the caller's array intact, and
the constructor's copy equals it. -/
theorem claim_C10_no_mutation_witness :
    (frequencyAnalysisNew
      (sliceAlloc
        (calculatePowerSpectrumHeap
          (spectrumAnalyzerNew ⟨[[1, 2, 3]]⟩ 0 1 "hamming").1
          (spectrumAnalyzerNew ⟨[[1, 2, 3]]⟩ 0 1 "hamming").2
          id id (fun _ _ => 0)).1
        0 0 1).1 0).1.get 0 = [1, 2, 3]
    ∧ (spectrumAnalyzerNew ⟨[[1, 2, 3]]⟩ 0 1 "hamming").1.get
        (spectrumAnalyzerNew ⟨[[1, 2, 3]]⟩ 0 1 "hamming").2.samplesRef
      = [1, 2, 3] := by
  constructor
  · rw [claim_C10_no_mutation.2.2.2.2 ⟨[[1, 2, 3]]⟩ 0 1 "hamming" id id
      (fun _ _ => 0) 0 1 (by simp)]
    rfl
  · rw [(claim_C10_no_mutation.1 ⟨[[1, 2, 3]]⟩ 0 1 "hamming").1]
    rfl

/-- Witness for `claim_C1_final_selection` at the spec's multi-tier example:
Primary = 120 mph, Secondary = 45 mph, Tertiary = 200 mph selects Secondary's
45 mph, which is minimal in the [10, 100] band. -/
theorem claim_C1_final_selection_witness :
    (findBestSpeedSelection (buildStrategies (some 120) (some 45) (some 200))).result
        = some ⟨45, TierTag.secondary⟩
    ∧ (∀ y ∈ reasonableFilter (buildStrategies (some 120) (some 45) (some 200)),
        (TierResult.mk 45 TierTag.secondary).speedMph ≤ y.speedMph) := by
  have hres : (findBestSpeedSelection (buildStrategies (some 120) (some 45) (some 200))).result
      = some ⟨45, TierTag.secondary⟩ := by decide
  have h := ((claim_C1_final_selection (some 120) (some 45) (some 200)).2.2.1
    ⟨45, TierTag.secondary⟩ hres).1 (by decide)
  obtain ⟨l₁, l₂, -, -, hmin⟩ := h
  exact ⟨hres, hmin⟩

end CarDoppler
